import Mathlib

/-!
# AIPPT generation pipeline: verified shallow embedding

This file embeds the core of the AIPPT generation pipeline in Lean 4 and
proves properties of the embedding:

* `withRetries` (apps/server/src/utils/retry.ts): bounded retry with
  exponential backoff and per-attempt warnings;
* `createConcurrencyLimiter` (utils/concurrency.ts): a FIFO admission gate
  bounding concurrent async operations;
* the slide image version store (jobs/generatePipeline.ts,
  slideImageService.ts): per-slide monotone version numbering, regenerate,
  restore;
* the Images stage runner and the Outline stage's destructive commit;
* `ensureWithinProject`: path containment for file access.

JavaScript async interleavings are modelled by explicit event/action
sequences; SQLite tables are modelled as Lean lists of rows; the image/text
services and the file system are oracles passed in as parameters.
-/

deriving instance DecidableEq for Except

namespace AIPPT

/-! ## Retry executor (`withRetries`, apps/server/src/utils/retry.ts)

The operation `fn : attempt → Promise<T>` is modelled as
`f : Nat → Except String α` (attempt numbers start at 1, errors are their
messages).  Besides the result we record the number of calls made to `f`,
the `console.warn` messages emitted, and the sleeps performed, so that the
logging/backoff contract can be stated. -/

structure RetryResult (α : Type) where
  result : Except String α
  calls : Nat
  warnings : List String
  sleeps : List Nat
  deriving Repr, DecidableEq

/-- The warning text of `console.warn` in `withRetries`
(`label failed (attempt i/n): err`); the label defaults to
`"withRetries"` at the call site when the caller passes none. -/
def warnMsg (label : String) (attempt attempts : Nat) (err : String) : String :=
  label ++ " failed (attempt " ++ toString attempt ++ "/" ++ toString attempts ++ "): " ++ err

/-- The body of the `for (attempt = 1; attempt <= attempts; ...)` loop of
`withRetries`, by recursion on the number of remaining loop iterations
(`remaining = attempts - attempt + 1`).  `lastErr` is the `lastError`
variable (starts out undefined, i.e. `none`); when the loop exits without
returning, the code throws
`lastError instanceof Error ? lastError : new Error(String(lastError))`,
which for an undefined `lastError` is the message `"undefined"`. -/
def withRetriesGo (attempts baseDelayMs : Nat) (label : String)
    (f : Nat → Except String α) : Nat → Option String → Nat → RetryResult α
  | _, lastErr, 0 =>
      { result := .error (lastErr.getD "undefined"), calls := 0, warnings := [], sleeps := [] }
  | attempt, _, remaining + 1 =>
      match f attempt with
      | .ok v => { result := .ok v, calls := 1, warnings := [], sleeps := [] }
      | .error e =>
          if attempts ≤ attempt then
            { result := .error e, calls := 1, warnings := [], sleeps := [] }
          else
            let delay := baseDelayMs * 2 ^ (attempt - 1)
            let rest := withRetriesGo attempts baseDelayMs label f (attempt + 1) (some e) remaining
            { result := rest.result, calls := rest.calls + 1,
              warnings := warnMsg label attempt attempts e :: rest.warnings,
              sleeps := delay :: rest.sleeps }

/-- `withRetries(attempts, fn, opts)` from apps/server/src/utils/retry.ts.
`baseDelayMs` defaults to 300 at the call site. -/
def withRetries (attempts : Nat) (f : Nat → Except String α)
    (label : String) (baseDelayMs : Nat) : RetryResult α :=
  withRetriesGo attempts baseDelayMs label f 1 none attempts

/-- Unfolding the loop when the current attempt succeeds: `fn` returns and
the loop is left at once. -/
theorem withRetriesGo_ok_here {α : Type} (attempts base : Nat) (label : String)
    (f : Nat → Except String α) (attempt : Nat) (lastErr : Option String)
    (remaining : Nat) (v : α) (hfa : f attempt = .ok v) :
    withRetriesGo attempts base label f attempt lastErr (remaining + 1) =
      { result := .ok v, calls := 1, warnings := [], sleeps := [] } := by
  simp [withRetriesGo, hfa]

/-- Behaviour of the retry loop when the first success is at attempt `j`
(all earlier attempts from `attempt` on fail): the loop returns `v`, having
called `f` once per attempt in `[attempt, j]`, warned and slept once per
failed attempt in `[attempt, j)`. -/
theorem withRetriesGo_ok {α : Type} (attempts base : Nat) (label : String)
    (f : Nat → Except String α) (es : Nat → String) (j : Nat) (v : α)
    (hj : j ≤ attempts) (hfj : f j = .ok v) :
    ∀ remaining attempt lastErr, attempt ≤ j →
      attempt + remaining = attempts + 1 →
      (∀ k, attempt ≤ k → k < j → f k = .error (es k)) →
      withRetriesGo attempts base label f attempt lastErr remaining =
        { result := .ok v, calls := j + 1 - attempt,
          warnings := (List.range' attempt (j - attempt)).map
            (fun k => warnMsg label k attempts (es k)),
          sleeps := (List.range' attempt (j - attempt)).map
            (fun k => base * 2 ^ (k - 1)) } := by
  intro remaining
  induction remaining with
  | zero => intro attempt lastErr h2 hsum hferr; omega
  | succ n ih =>
      intro attempt lastErr h2 hsum hferr
      rcases eq_or_lt_of_le h2 with heq | hlt
      · subst heq
        rw [withRetriesGo_ok_here attempts base label f attempt lastErr n v hfj]
        simp
      · have hfa : f attempt = .error (es attempt) := hferr attempt le_rfl hlt
        have hnotle : ¬ attempts ≤ attempt := by omega
        have hrec := ih (attempt + 1) (some (es attempt)) (by omega) (by omega)
          (fun k hk1 hk2 => hferr k (by omega) hk2)
        have hrange : List.range' attempt (j - attempt) =
            attempt :: List.range' (attempt + 1) (j - (attempt + 1)) := by
          have hj' : j - attempt = (j - (attempt + 1)) + 1 := by omega
          rw [hj', List.range'_succ]
        simp only [withRetriesGo, hfa, hnotle, if_false, hrec, hrange, List.map_cons]
        have hc : j + 1 - (attempt + 1) + 1 = j + 1 - attempt := by omega
        rw [hc]

/-- Behaviour of the retry loop when every attempt in `[attempt, attempts]`
fails: the loop exhausts the budget, calling `f` once per attempt, warning
and sleeping only for the non-final failed attempts, and rethrows the error
of attempt `attempts`. -/
theorem withRetriesGo_allFail {α : Type} (attempts base : Nat) (label : String)
    (f : Nat → Except String α) (es : Nat → String) :
    ∀ remaining attempt lastErr, attempt ≤ attempts →
      attempt + remaining = attempts + 1 →
      (∀ k, attempt ≤ k → k ≤ attempts → f k = .error (es k)) →
      withRetriesGo attempts base label f attempt lastErr remaining =
        { result := .error (es attempts), calls := attempts + 1 - attempt,
          warnings := (List.range' attempt (attempts - attempt)).map
            (fun k => warnMsg label k attempts (es k)),
          sleeps := (List.range' attempt (attempts - attempt)).map
            (fun k => base * 2 ^ (k - 1)) } := by
  intro remaining
  induction remaining with
  | zero => intro attempt lastErr h2 hsum hferr; omega
  | succ n ih =>
      intro attempt lastErr h2 hsum hferr
      have hfa : f attempt = .error (es attempt) := hferr attempt le_rfl h2
      rcases eq_or_lt_of_le h2 with heq | hlt
      · subst heq
        simp [withRetriesGo, hfa]
      · have hnotle : ¬ attempts ≤ attempt := by omega
        have hrec := ih (attempt + 1) (some (es attempt)) (by omega) (by omega)
          (fun k hk1 hk2 => hferr k (by omega) hk2)
        have hrange : List.range' attempt (attempts - attempt) =
            attempt :: List.range' (attempt + 1) (attempts - (attempt + 1)) := by
          have hj' : attempts - attempt = (attempts - (attempt + 1)) + 1 := by omega
          rw [hj', List.range'_succ]
        simp only [withRetriesGo, hfa, hnotle, if_false, hrec, hrange, List.map_cons]
        have hc : attempts + 1 - (attempt + 1) + 1 = attempts + 1 - attempt := by omega
        rw [hc]

/-- C5: `withRetries(attempts, f)` returns the result of the first call of
`f` that succeeds; each failed attempt `k < attempts` sleeps
`baseDelay * 2^(k-1)` before the retry; if every one of the `attempts`
calls throws, `f` is called exactly `attempts` times and the last error is
rethrown. -/
theorem withRetries_contract {α : Type} (attempts : Nat) (f : Nat → Except String α)
    (label : String) (base : Nat) (es : Nat → String) :
    (∀ j v, 1 ≤ j → j ≤ attempts →
      (∀ k, 1 ≤ k → k < j → f k = .error (es k)) → f j = .ok v →
      withRetries attempts f label base =
        { result := .ok v, calls := j,
          warnings := (List.range' 1 (j - 1)).map
            (fun k => warnMsg label k attempts (es k)),
          sleeps := (List.range' 1 (j - 1)).map (fun k => base * 2 ^ (k - 1)) })
  ∧ (1 ≤ attempts → (∀ k, 1 ≤ k → k ≤ attempts → f k = .error (es k)) →
      withRetries attempts f label base =
        { result := .error (es attempts), calls := attempts,
          warnings := (List.range' 1 (attempts - 1)).map
            (fun k => warnMsg label k attempts (es k)),
          sleeps := (List.range' 1 (attempts - 1)).map
            (fun k => base * 2 ^ (k - 1)) }) := by
  constructor
  · intro j v hj1 hj2 hferr hfj
    have h := withRetriesGo_ok attempts base label f es j v hj2 hfj attempts 1 none
      hj1 (by omega) (fun k hk1 hk2 => hferr k hk1 hk2)
    simpa [withRetries] using h
  · intro h1 hferr
    have h := withRetriesGo_allFail attempts base label f es attempts 1 none
      h1 (by omega) (fun k hk1 hk2 => hferr k hk1 hk2)
    simpa [withRetries] using h

/-- An operation that fails on attempts 1 and 2 and succeeds on attempt 3. -/
def failTwiceOp : Nat → Except String Nat :=
  fun k => if k ≤ 2 then .error ("e" ++ toString k) else .ok 42

/-- Error messages of `failTwiceOp` (and of `alwaysFailOp` where relevant). -/
def failTwiceErr : Nat → String := fun k => "e" ++ toString k

/-- An operation that throws on every attempt. -/
def alwaysFailOp : Nat → Except String Nat := fun _ => .error "boom"

/-- Witness for `withRetries_contract`: with `attempts = 3`, an operation
failing twice then succeeding returns the success after 3 calls and 2
backoff sleeps (300ms, 600ms); an always-failing operation makes exactly 3
calls and rethrows `"boom"`. -/
theorem withRetries_contract_witness :
    withRetries 3 failTwiceOp "SlideContentAgent" 300 =
      { result := .ok 42, calls := 3,
        warnings := [warnMsg "SlideContentAgent" 1 3 "e1",
                     warnMsg "SlideContentAgent" 2 3 "e2"],
        sleeps := [300, 600] } ∧
    withRetries 3 alwaysFailOp "ImageGen" 300 =
      { result := .error "boom", calls := 3,
        warnings := [warnMsg "ImageGen" 1 3 "boom", warnMsg "ImageGen" 2 3 "boom"],
        sleeps := [300, 600] } := by
  constructor
  · have h := (withRetries_contract 3 failTwiceOp "SlideContentAgent" 300 failTwiceErr).1
      3 42 (by decide) (by decide)
      (by intro k hk1 hk2; interval_cases k <;> rfl) (by rfl)
    simpa using h
  · have h := (withRetries_contract 3 alwaysFailOp "ImageGen" 300 (fun _ => "boom")).2
      (by decide) (fun k _ _ => rfl)
    simpa using h

/-- Every warning emitted by `withRetries` starts with the caller-supplied
label. -/
theorem warnMsg_starts_with_label (label : String) (k n : Nat) (e : String) :
    ∃ tail, warnMsg label k n e = label ++ tail := by
  refine ⟨" failed (attempt " ++ toString k ++ "/" ++ toString n ++ "): " ++ e, ?_⟩
  simp [warnMsg, String.append_assoc]

/-- C6 (amended): `withRetries` logs exactly one warning, including the
caller-supplied label, per failed attempt that is followed by a retry;
the final failed attempt of an exhausted budget is rethrown without a
warning.  So with `attempts = 3`, fail-twice-then-succeed yields exactly 2
warnings, and an always-failing operation also yields exactly 2 warnings
(not 3). -/
theorem withRetries_warnings {α : Type} (attempts : Nat) (f : Nat → Except String α)
    (label : String) (base : Nat) (es : Nat → String) :
    (∀ j v, 1 ≤ j → j ≤ attempts →
      (∀ k, 1 ≤ k → k < j → f k = .error (es k)) → f j = .ok v →
      (withRetries attempts f label base).warnings.length = j - 1 ∧
      ∀ w ∈ (withRetries attempts f label base).warnings, ∃ tail, w = label ++ tail)
  ∧ (1 ≤ attempts → (∀ k, 1 ≤ k → k ≤ attempts → f k = .error (es k)) →
      (withRetries attempts f label base).warnings.length = attempts - 1 ∧
      ∀ w ∈ (withRetries attempts f label base).warnings, ∃ tail, w = label ++ tail) := by
  constructor
  · intro j v hj1 hj2 hferr hfj
    have h := withRetriesGo_ok attempts base label f es j v hj2 hfj attempts 1 none
      hj1 (by omega) (fun k hk1 hk2 => hferr k hk1 hk2)
    have hw : (withRetries attempts f label base).warnings =
        (List.range' 1 (j - 1)).map (fun k => warnMsg label k attempts (es k)) := by
      simpa [withRetries] using congrArg RetryResult.warnings h
    constructor
    · simp [hw]
    · intro w hwmem
      rw [hw] at hwmem
      obtain ⟨k, _, rfl⟩ := List.mem_map.1 hwmem
      exact warnMsg_starts_with_label label k attempts (es k)
  · intro h1 hferr
    have h := withRetriesGo_allFail attempts base label f es attempts 1 none
      h1 (by omega) (fun k hk1 hk2 => hferr k hk1 hk2)
    have hw : (withRetries attempts f label base).warnings =
        (List.range' 1 (attempts - 1)).map (fun k => warnMsg label k attempts (es k)) := by
      simpa [withRetries] using congrArg RetryResult.warnings h
    constructor
    · simp [hw]
    · intro w hwmem
      rw [hw] at hwmem
      obtain ⟨k, _, rfl⟩ := List.mem_map.1 hwmem
      exact warnMsg_starts_with_label label k attempts (es k)

/-- Counterexample to C6 as stated: with `attempts = 3` an always-failing
operation makes 3 failed calls but logs only 2 warnings, not one per
failed attempt — the final failed attempt is rethrown without a warning. -/
theorem withRetries_warnings_cex :
    (withRetries 3 alwaysFailOp "ImageGen" 300).calls = 3 ∧
    (withRetries 3 alwaysFailOp "ImageGen" 300).result = .error "boom" ∧
    (withRetries 3 alwaysFailOp "ImageGen" 300).warnings.length = 2 ∧
    ¬ (withRetries 3 alwaysFailOp "ImageGen" 300).warnings.length = 3 := by
  refine ⟨rfl, rfl, rfl, by decide⟩

/-- Witness for `withRetries_warnings`: both branches at `attempts = 3`,
with fail-twice-then-succeed (2 warnings) and always-fail (2 warnings). -/
theorem withRetries_warnings_witness :
    (withRetries 3 failTwiceOp "SlideContentAgent" 300).warnings.length = 2 ∧
    (withRetries 3 alwaysFailOp "OutlineAgent" 300).warnings.length = 2 := by
  constructor
  · exact ((withRetries_warnings 3 failTwiceOp "SlideContentAgent" 300 failTwiceErr).1
      3 42 (by decide) (by decide)
      (by intro k hk1 hk2; interval_cases k <;> rfl) (by rfl)).1
  · exact ((withRetries_warnings 3 alwaysFailOp "OutlineAgent" 300 (fun _ => "boom")).2
      (by decide) (fun k _ _ => rfl)).1

/-! ## Concurrency limiter (`createConcurrencyLimiter`, utils/concurrency.ts)

The JavaScript argument is a double; we model it as a rational together
with the non-finite values `NaN`/`±Infinity` (every double is one of
these).  `Number.isInteger` and `x <= 0` are modelled exactly on this
type.

The limiter itself is a state machine.  A call to `limit(fn)` either is
admitted at once (`activeCount < maxConcurrency`) or pushes its resolver
onto `queue`; on completion — success or thrown error alike, via the
`finally` block — `next()` decrements `activeCount` and resumes the first
waiter, which then increments `activeCount` and runs.  The decrement and
the waiter's resume run within one microtask drain, with no intervening
`limit` call, so they are one atomic step here.  `running` is the list of
currently admitted task ids in admission order, `admitted` the list of all
tasks ever admitted in admission order, `finished` the completed tasks. -/

inductive JsNumber
  | nan
  | posInf
  | negInf
  | finite (q : ℚ)
  deriving Repr, DecidableEq

/-- `Number.isInteger`: true exactly for finite integral doubles. -/
def JsNumber.isInteger : JsNumber → Bool
  | .finite q => q.den = 1
  | _ => false

/-- The comparison `x <= 0` on doubles (`NaN <= 0` is false). -/
def JsNumber.leZero : JsNumber → Bool
  | .nan => false
  | .posInf => false
  | .negInf => true
  | .finite q => decide (q ≤ 0)

/-- JavaScript string rendering of the number, used in the error text. -/
def JsNumber.render : JsNumber → String
  | .nan => "NaN"
  | .posInf => "Infinity"
  | .negInf => "-Infinity"
  | .finite q => toString q

structure LimiterState where
  maxConcurrency : Nat
  activeCount : Nat
  queue : List Nat
  running : List Nat
  admitted : List Nat
  finished : List Nat
  deriving Repr, DecidableEq

def initLimiter (n : Nat) : LimiterState :=
  { maxConcurrency := n, activeCount := 0, queue := [], running := [],
    admitted := [], finished := [] }

def concurrencyErrMsg (x : JsNumber) : String :=
  "maxConcurrency must be a positive integer, got: " ++ x.render

/-- `createConcurrencyLimiter(maxConcurrency)`: the argument check and the
initial limiter state.  The second `match` arm is unreachable because a
non-finite number is never an integer. -/
def createConcurrencyLimiter (x : JsNumber) : Except String LimiterState :=
  if !x.isInteger || x.leZero then .error (concurrencyErrMsg x)
  else
    match x with
    | .finite q => .ok (initLimiter q.num.toNat)
    | _ => .error (concurrencyErrMsg x)

/-- A task calls `limit(fn)`: admitted at once if a slot is free, else
appended to the FIFO queue. -/
def limitSubmit (s : LimiterState) (tid : Nat) : LimiterState :=
  if s.maxConcurrency ≤ s.activeCount then
    { s with queue := s.queue ++ [tid] }
  else
    { s with activeCount := s.activeCount + 1, running := s.running ++ [tid],
             admitted := s.admitted ++ [tid] }

/-- A running task's `fn` settles (`ok` is whether it succeeded; the
`finally` block makes the state update identical either way): `next()`
releases the slot and resumes the head waiter, if any. -/
def limitComplete (s : LimiterState) (tid : Nat) (_ok : Bool) : LimiterState :=
  if tid ∈ s.running then
    let s1 := { s with activeCount := s.activeCount - 1, running := s.running.erase tid,
                       finished := s.finished ++ [tid] }
    match s1.queue with
    | [] => s1
    | t :: rest =>
        { s1 with activeCount := s1.activeCount + 1, queue := rest,
                  running := s1.running ++ [t], admitted := s1.admitted ++ [t] }
  else s

inductive LimiterAct
  | submit (tid : Nat)
  | complete (tid : Nat) (ok : Bool)
  deriving Repr, DecidableEq

def applyAct (s : LimiterState) : LimiterAct → LimiterState
  | .submit t => limitSubmit s t
  | .complete t ok => limitComplete s t ok

def applyActs (s : LimiterState) (acts : List LimiterAct) : LimiterState :=
  acts.foldl applyAct s

/-- The task ids of the `submit` actions of a trace, in submission order. -/
def submitsOf (acts : List LimiterAct) : List Nat :=
  acts.filterMap (fun a => match a with | .submit t => some t | _ => none)

/-- The limiter's internal invariant: `activeCount` counts the admitted
tasks, never exceeds the capacity, and the queue is only nonempty at full
capacity. -/
def LimiterInv (s : LimiterState) : Prop :=
  s.activeCount = s.running.length ∧ s.activeCount ≤ s.maxConcurrency ∧
    (s.queue ≠ [] → s.activeCount = s.maxConcurrency)

theorem limiterInv_init (n : Nat) : LimiterInv (initLimiter n) := by
  refine ⟨rfl, Nat.zero_le n, ?_⟩
  intro h
  exact absurd rfl h

theorem limiterInv_submit (s : LimiterState) (t : Nat) (h : LimiterInv s) :
    LimiterInv (limitSubmit s t) := by
  obtain ⟨h1, h2, h3⟩ := h
  unfold limitSubmit
  by_cases hc : s.maxConcurrency ≤ s.activeCount
  · rw [if_pos hc]
    exact ⟨h1, h2, fun _ => by show s.activeCount = s.maxConcurrency; omega⟩
  · rw [if_neg hc]
    refine ⟨?_, ?_, fun hq => ?_⟩
    · simpa using h1
    · show s.activeCount + 1 ≤ s.maxConcurrency
      omega
    · exact absurd (h3 hq) (by omega)

theorem limiterInv_complete (s : LimiterState) (t : Nat) (ok : Bool)
    (h : LimiterInv s) : LimiterInv (limitComplete s t ok) := by
  obtain ⟨h1, h2, h3⟩ := h
  unfold limitComplete
  by_cases hmem : t ∈ s.running
  · rw [if_pos hmem]
    have hlen : (s.running.erase t).length = s.running.length - 1 :=
      List.length_erase_of_mem hmem
    have hpos : 1 ≤ s.running.length := List.length_pos.2 (List.ne_nil_of_mem hmem)
    rcases hq : s.queue with _ | ⟨q0, qrest⟩
    · refine ⟨?_, ?_, fun hqq => ?_⟩
      · show s.activeCount - 1 = (s.running.erase t).length
        omega
      · show s.activeCount - 1 ≤ s.maxConcurrency
        omega
      · exact absurd rfl hqq
    · have hfull : s.activeCount = s.maxConcurrency := h3 (by simp [hq])
      refine ⟨?_, ?_, fun _ => ?_⟩
      · show s.activeCount - 1 + 1 = (s.running.erase t ++ [q0]).length
        simp [hlen]
        omega
      · show s.activeCount - 1 + 1 ≤ s.maxConcurrency
        omega
      · show s.activeCount - 1 + 1 = s.maxConcurrency
        omega
  · rw [if_neg hmem]
    exact ⟨h1, h2, h3⟩

theorem limiterInv_applyActs (s : LimiterState) (acts : List LimiterAct)
    (h : LimiterInv s) : LimiterInv (applyActs s acts) := by
  induction acts generalizing s with
  | nil => simpa [applyActs] using h
  | cons a rest ih =>
      have hstep : LimiterInv (applyAct s a) := by
        cases a with
        | submit t => exact limiterInv_submit s t h
        | complete t ok => exact limiterInv_complete s t ok h
      simpa [applyActs, List.foldl_cons] using ih (applyAct s a) hstep

/-- The FIFO order bookkeeping: `admitted ++ queue` lists, in submission
order, every task that ever entered the limiter and was not yet dropped
from the queue. -/
def limiterOrder (s : LimiterState) : List Nat := s.admitted ++ s.queue

theorem limiterOrder_submit (s : LimiterState) (t : Nat) (h : LimiterInv s) :
    limiterOrder (limitSubmit s t) = limiterOrder s ++ [t] := by
  obtain ⟨h1, h2, h3⟩ := h
  by_cases hc : s.maxConcurrency ≤ s.activeCount
  · simp [limiterOrder, limitSubmit, hc]
  · have hq : s.queue = [] := by
      by_contra hne
      exact absurd (h3 hne) (by omega)
    simp [limiterOrder, limitSubmit, hc, hq]

theorem limiterOrder_complete (s : LimiterState) (t : Nat) (ok : Bool) :
    limiterOrder (limitComplete s t ok) = limiterOrder s := by
  by_cases hmem : t ∈ s.running
  · rcases hq : s.queue with _ | ⟨q0, qrest⟩
    · simp [limiterOrder, limitComplete, hmem, hq]
    · simp [limiterOrder, limitComplete, hmem, hq]
  · simp [limiterOrder, limitComplete, hmem]

theorem limiterOrder_applyActs (s : LimiterState) (acts : List LimiterAct)
    (h : LimiterInv s) :
    limiterOrder (applyActs s acts) = limiterOrder s ++ submitsOf acts := by
  induction acts generalizing s with
  | nil => simp [applyActs, submitsOf]
  | cons a rest ih =>
      have hstep : LimiterInv (applyAct s a) := by
        cases a with
        | submit t => exact limiterInv_submit s t h
        | complete t ok => exact limiterInv_complete s t ok h
      have hrec := ih (applyAct s a) hstep
      cases a with
      | submit t =>
          have horder := limiterOrder_submit s t h
          simp only [applyActs, List.foldl_cons, applyAct] at hrec ⊢
          rw [hrec, horder]
          simp [submitsOf, List.filterMap_cons]
      | complete t ok =>
          have horder := limiterOrder_complete s t ok
          simp only [applyActs, List.foldl_cons, applyAct] at hrec ⊢
          rw [hrec, horder]
          simp [submitsOf, List.filterMap_cons]

/-- Neither step changes the capacity. -/
theorem maxConcurrency_applyActs (s : LimiterState) (acts : List LimiterAct) :
    (applyActs s acts).maxConcurrency = s.maxConcurrency := by
  induction acts generalizing s with
  | nil => rfl
  | cons a rest ih =>
      have hstep : (applyAct s a).maxConcurrency = s.maxConcurrency := by
        cases a with
        | submit t =>
            simp only [applyAct, limitSubmit]
            split <;> rfl
        | complete t ok =>
            simp only [applyAct, limitComplete]
            split
            · split <;> rfl
            · rfl
      simp only [applyActs, List.foldl_cons]
      rw [show List.foldl applyAct (applyAct s a) rest = applyActs (applyAct s a) rest from rfl,
        ih (applyAct s a), hstep]

/-- Completing the head of `running` in explicit form. -/
theorem limitComplete_head (s : LimiterState) (t : Nat) (rest : List Nat) (ok : Bool)
    (hrun : s.running = t :: rest) :
    limitComplete s t ok =
      match s.queue with
      | [] => { s with activeCount := s.activeCount - 1, running := rest,
                       finished := s.finished ++ [t] }
      | q0 :: qrest =>
          { s with activeCount := s.activeCount - 1 + 1, queue := qrest,
                   running := rest ++ [q0], admitted := s.admitted ++ [q0],
                   finished := s.finished ++ [t] } := by
  have hmem : t ∈ s.running := by rw [hrun]; exact List.mem_cons_self t rest
  unfold limitComplete
  rw [if_pos hmem, hrun, List.erase_cons_head]

/-- A scheduler that repeatedly completes the longest-running admitted
task.  `fuel` bounds the number of completions. -/
def drainLimiter : LimiterState → Nat → LimiterState
  | s, 0 => s
  | s, fuel + 1 =>
      match s.running with
      | [] => s
      | t :: _ => drainLimiter (limitComplete s t true) fuel

/-- Draining a limiter with positive capacity empties it: every admitted or
queued task finishes, and the waiters are admitted in queue order. -/
theorem drainLimiter_spec :
    ∀ (fuel : Nat) (s : LimiterState), LimiterInv s → 0 < s.maxConcurrency →
      s.running.length + s.queue.length ≤ fuel →
      (drainLimiter s fuel).running = [] ∧ (drainLimiter s fuel).queue = [] ∧
      (drainLimiter s fuel).finished.length
        = s.finished.length + s.running.length + s.queue.length ∧
      (drainLimiter s fuel).admitted = s.admitted ++ s.queue := by
  intro fuel
  induction fuel with
  | zero =>
      intro s hInv hmax hfuel
      have hr : s.running = [] := List.length_eq_zero.1 (by omega)
      have hq : s.queue = [] := List.length_eq_zero.1 (by omega)
      simp [drainLimiter, hr, hq]
  | succ n ih =>
      intro s hInv hmax hfuel
      obtain ⟨h1, h2, h3⟩ := hInv
      rcases hrun : s.running with _ | ⟨t, rest⟩
      · have hq : s.queue = [] := by
          by_contra hne
          have := h3 hne
          rw [hrun] at h1
          simp at h1
          omega
        simp [drainLimiter, hrun, hq]
      · have hstep : drainLimiter s (n + 1) = drainLimiter (limitComplete s t true) n := by
          simp [drainLimiter, hrun]
        have hInv' : LimiterInv (limitComplete s t true) :=
          limiterInv_complete s t true ⟨h1, h2, h3⟩
        rcases hq : s.queue with _ | ⟨q0, qrest⟩
        · have hc2 : limitComplete s t true =
              { s with activeCount := s.activeCount - 1, running := rest,
                       finished := s.finished ++ [t] } := by
            rw [limitComplete_head s t rest true hrun, hq]
          rw [hc2] at hInv'
          have hrec := ih _ hInv' (by simpa using hmax)
            (by simp only [hrun, hq, List.length_cons, List.length_nil] at hfuel ⊢; omega)
          rw [hstep, hc2]
          refine ⟨hrec.1, hrec.2.1, ?_, ?_⟩
          · rw [hrec.2.2.1]
            simp [hrun, hq]
            omega
          · rw [hrec.2.2.2]
            simp [hq]
        · have hc2 : limitComplete s t true =
              { s with activeCount := s.activeCount - 1 + 1, queue := qrest,
                       running := rest ++ [q0], admitted := s.admitted ++ [q0],
                       finished := s.finished ++ [t] } := by
            rw [limitComplete_head s t rest true hrun, hq]
          rw [hc2] at hInv'
          have hrec := ih _ hInv' (by simpa using hmax)
            (by simp only [hrun, hq, List.length_cons, List.length_append,
                  List.length_nil] at hfuel ⊢; omega)
          rw [hstep, hc2]
          refine ⟨hrec.1, hrec.2.1, ?_, ?_⟩
          · rw [hrec.2.2.1]
            simp [hrun, hq]
            omega
          · rw [hrec.2.2.2]
            simp [hq]

/-- After submit-only traffic, `running` and `admitted` coincide and
nothing has finished (used for the initial burst of `K` submissions). -/
theorem applyActs_submits (ids : List Nat) :
    ∀ s : LimiterState, s.running = s.admitted →
      (applyActs s (ids.map .submit)).running = (applyActs s (ids.map .submit)).admitted ∧
      (applyActs s (ids.map .submit)).finished = s.finished := by
  induction ids with
  | nil => intro s hrs; exact ⟨hrs, rfl⟩
  | cons i rest ih =>
      intro s hrs
      have hstep : (limitSubmit s i).running = (limitSubmit s i).admitted ∧
          (limitSubmit s i).finished = s.finished := by
        unfold limitSubmit
        split
        · exact ⟨hrs, rfl⟩
        · exact ⟨by rw [hrs], rfl⟩
      have hrec := ih (limitSubmit s i) hstep.1
      simp only [List.map_cons, applyActs, List.foldl_cons, applyAct] at hrec ⊢
      exact ⟨hrec.1, hrec.2.trans hstep.2⟩

/-- The submit actions of a burst of plain submissions. -/
theorem submitsOf_map_submit (ids : List Nat) :
    submitsOf (ids.map .submit) = ids := by
  induction ids with
  | nil => rfl
  | cons i rest ih => simpa [submitsOf, List.filterMap_cons] using ih

/-- C4: for a limiter of capacity `N > 0` and `K > N` concurrently
submitted tasks: (1) after any interleaving of submissions and
completions, at most `N` tasks are admitted simultaneously, and the
admitted tasks followed by the queue always list the submitted tasks in
submission order (FIFO admission); (2) a throwing operation releases its
slot exactly like a succeeding one; (3) submitting tasks `0..K-1` and then
letting running tasks finish completes all `K` tasks, admitting them in
submission order `0..K-1`. -/
theorem concurrencyLimiter_guarantees (N K : Nat) (hN : 0 < N) (_hK : N < K) :
    (∀ acts : List LimiterAct,
        (applyActs (initLimiter N) acts).running.length ≤ N
      ∧ (applyActs (initLimiter N) acts).admitted
          ++ (applyActs (initLimiter N) acts).queue = submitsOf acts)
  ∧ (∀ (s : LimiterState) (t : Nat), limitComplete s t false = limitComplete s t true)
  ∧ ((drainLimiter (applyActs (initLimiter N) ((List.range K).map .submit)) K).running = []
     ∧ (drainLimiter (applyActs (initLimiter N) ((List.range K).map .submit)) K).finished.length
         = K
     ∧ (drainLimiter (applyActs (initLimiter N) ((List.range K).map .submit)) K).admitted
         = List.range K) := by
  have hinit : LimiterInv (initLimiter N) := limiterInv_init N
  refine ⟨?_, fun s t => rfl, ?_⟩
  · intro acts
    have hInv := limiterInv_applyActs (initLimiter N) acts hinit
    obtain ⟨h1, h2, _⟩ := hInv
    have hmax := maxConcurrency_applyActs (initLimiter N) acts
    have horder := limiterOrder_applyActs (initLimiter N) acts hinit
    constructor
    · rw [← h1]
      calc (applyActs (initLimiter N) acts).activeCount
          ≤ (applyActs (initLimiter N) acts).maxConcurrency := h2
        _ = N := by rw [hmax]; rfl
    · simpa [limiterOrder, initLimiter] using horder
  · set s0 := applyActs (initLimiter N) ((List.range K).map .submit) with hs0
    have hInv0 : LimiterInv s0 := limiterInv_applyActs _ _ hinit
    have hmax0 : s0.maxConcurrency = N := by
      rw [hs0, maxConcurrency_applyActs]
      rfl
    have horder0 : s0.admitted ++ s0.queue = List.range K := by
      have h := limiterOrder_applyActs (initLimiter N) ((List.range K).map .submit) hinit
      simpa [limiterOrder, initLimiter, submitsOf_map_submit] using h
    have hsub := applyActs_submits (List.range K) (initLimiter N) rfl
    have hra : s0.running = s0.admitted := hsub.1
    have hfin0 : s0.finished = [] := hsub.2
    have hlen : s0.running.length + s0.queue.length = K := by
      have := congrArg List.length horder0
      simp only [List.length_append, List.length_range] at this
      rw [hra]
      omega
    have hdrain := drainLimiter_spec K s0 hInv0 (by omega) (by omega)
    refine ⟨hdrain.1, ?_, ?_⟩
    · rw [hdrain.2.2.1, hfin0]
      simpa using hlen
    · rw [hdrain.2.2.2, horder0]

/-- Witness for `concurrencyLimiter_guarantees` at capacity 2 with 5
tasks: the concrete drained run finishes all 5 tasks in admission order
`0..4`. -/
theorem concurrencyLimiter_guarantees_witness :
    (drainLimiter (applyActs (initLimiter 2) ((List.range 5).map .submit)) 5).finished.length
      = 5 ∧
    (drainLimiter (applyActs (initLimiter 2) ((List.range 5).map .submit)) 5).admitted
      = List.range 5 := by
  have h := (concurrencyLimiter_guarantees 2 5 (by decide) (by decide)).2.2
  exact ⟨h.2.1, h.2.2⟩

/-- C10: `createConcurrencyLimiter` accepts exactly the positive-integer
doubles — fractional values like `2.5`, `NaN` and `Infinity` are all
rejected at construction — and an accepted capacity `n` is used exactly,
not truncated. -/
theorem createConcurrencyLimiter_validation :
    (∀ x : JsNumber, (∃ s, createConcurrencyLimiter x = .ok s) ↔
        (∃ n : Nat, 0 < n ∧ x = .finite (n : ℚ)))
  ∧ (∀ n : Nat, 0 < n →
        createConcurrencyLimiter (.finite (n : ℚ)) = .ok (initLimiter n))
  ∧ createConcurrencyLimiter (.finite ⟨5, 2, by decide, by decide⟩)
      = .error (concurrencyErrMsg (.finite ⟨5, 2, by decide, by decide⟩))
  ∧ createConcurrencyLimiter .nan = .error (concurrencyErrMsg .nan)
  ∧ createConcurrencyLimiter .posInf = .error (concurrencyErrMsg .posInf)
  ∧ createConcurrencyLimiter .negInf = .error (concurrencyErrMsg .negInf)
  ∧ createConcurrencyLimiter (.finite 0) = .error (concurrencyErrMsg (.finite 0)) := by
  have haccept : ∀ n : Nat, 0 < n →
      createConcurrencyLimiter (.finite (n : ℚ)) = .ok (initLimiter n) := by
    intro n hn
    have hden : ((n : ℚ)).den = 1 := Rat.den_natCast n
    have hnum : ((n : ℚ)).num = (n : ℤ) := Rat.num_natCast n
    have hpos : ¬ ((n : ℚ) ≤ 0) := by
      simp only [not_le]
      exact_mod_cast hn
    simp only [createConcurrencyLimiter, JsNumber.isInteger, JsNumber.leZero, hden]
    rw [if_neg (by simp [hpos])]
    rw [hnum]
    simp
  refine ⟨?_, haccept, rfl, rfl, rfl, rfl, rfl⟩
  intro x
  constructor
  · rintro ⟨s, hs⟩
    rcases x with _ | _ | _ | q
    · simp [createConcurrencyLimiter, JsNumber.isInteger] at hs
    · simp [createConcurrencyLimiter, JsNumber.isInteger] at hs
    · simp [createConcurrencyLimiter, JsNumber.isInteger] at hs
    · by_cases hden : q.den = 1
      · by_cases hle : q ≤ 0
        · simp [createConcurrencyLimiter, JsNumber.isInteger, JsNumber.leZero,
            hden, hle] at hs
        · refine ⟨q.num.toNat, ?_, ?_⟩
          · have hqpos : 0 < q := lt_of_not_le hle
            have : 0 < q.num := Rat.num_pos.2 hqpos
            omega
          · have hqnum : (q.num : ℚ) = q := (Rat.den_eq_one_iff q).1 hden
            have hqpos : 0 < q.num := Rat.num_pos.2 (lt_of_not_le hle)
            have : ((q.num.toNat : ℤ) : ℚ) = q := by
              rw [Int.toNat_of_nonneg (le_of_lt hqpos), hqnum]
            rw [show ((q.num.toNat : ℕ) : ℚ) = ((q.num.toNat : ℤ) : ℚ) by push_cast; ring,
              this]
      · simp [createConcurrencyLimiter, JsNumber.isInteger, hden] at hs
  · rintro ⟨n, hn, rfl⟩
    exact ⟨initLimiter n, haccept n hn⟩

/-- Witness for `createConcurrencyLimiter_validation`: capacity 5 is
accepted and used exactly. -/
theorem createConcurrencyLimiter_validation_witness :
    createConcurrencyLimiter (.finite (5 : ℚ)) = .ok (initLimiter 5) :=
  createConcurrencyLimiter_validation.2.1 5 (by decide)

/-! ## Slide image versions (`slide_image_versions` table)

Rows of the SQLite table.  Ids are modelled as `Nat` (UUID strings in the
repository); `request_json`/`response_json` are `NULL`able text columns. -/

structure ImageVersionRow where
  slideId : Nat
  version : Nat
  promptText : String
  imagePath : String
  provider : String
  requestJson : Option String
  responseJson : Option String
  deriving Repr, DecidableEq

/-- The versions recorded for one slide, in row (insertion) order. -/
def versionsOfSlide (rows : List ImageVersionRow) (slideId : Nat) : List Nat :=
  (rows.filter (fun r => r.slideId = slideId)).map (fun r => r.version)

/-- `SELECT MAX(version) FROM slide_image_versions WHERE slide_id = ?`,
with the JS `row?.v ? Number(row.v) : 0` handling of the empty case. -/
def maxVersion (rows : List ImageVersionRow) (slideId : Nat) : Nat :=
  (versionsOfSlide rows slideId).foldl max 0

/-- The `(row?.v ? Number(row.v) : 0) + 1` computation shared by all three
write paths (Images stage, regenerate, restore). -/
def nextVersionForSlide (rows : List ImageVersionRow) (slideId : Nat) : Nat :=
  maxVersion rows slideId + 1

theorem versionsOfSlide_append (rows : List ImageVersionRow) (r : ImageVersionRow)
    (s : Nat) :
    versionsOfSlide (rows ++ [r]) s =
      versionsOfSlide rows s ++ (if r.slideId = s then [r.version] else []) := by
  by_cases h : r.slideId = s
  · simp [versionsOfSlide, List.filter_append, List.filter_cons, h]
  · simp [versionsOfSlide, List.filter_append, List.filter_cons, h]

theorem foldl_max_range' (m : Nat) : (List.range' 1 m).foldl max 0 = m := by
  induction m with
  | zero => rfl
  | succ n ih =>
      have h : List.range' 1 (n + 1) 1 = List.range' 1 n 1 ++ [1 + 1 * n] :=
        List.range'_concat 1 n
      simp only [one_mul] at h
      rw [h, List.foldl_append, ih]
      simp only [List.foldl_cons, List.foldl_nil]
      omega

theorem maxVersion_of_contiguous (rows : List ImageVersionRow) (s m : Nat)
    (h : versionsOfSlide rows s = List.range' 1 m) : maxVersion rows s = m := by
  unfold maxVersion
  rw [h, foldl_max_range']

theorem nextVersionForSlide_append_other (rows : List ImageVersionRow)
    (r : ImageVersionRow) (s : Nat) (h : r.slideId ≠ s) :
    nextVersionForSlide (rows ++ [r]) s = nextVersionForSlide rows s := by
  unfold nextVersionForSlide maxVersion
  rw [versionsOfSlide_append, if_neg h, List.append_nil]

/-! ### C1: concurrent write schedules

Each image write path performs two database actions: the
`SELECT MAX(version)` read that computes the next version, then — after
awaiting the image service — the `INSERT` of the row carrying that
version.  Actions of writes to other slides may interleave between the
two; same-slide writes never overlap (the repository serialises them via
the slide's status, spec §5). -/

/-- One concurrent image write (an Images stage unit, a manual regenerate,
or a restore): the slide it targets and the payload it will insert. -/
structure WriteOp where
  slideId : Nat
  promptText : String
  imagePath : String
  provider : String
  requestJson : Option String
  responseJson : Option String
  deriving Repr, DecidableEq

inductive VerEv
  | read (i : Nat)
  | ins (i : Nat)
  deriving Repr, DecidableEq

/-- Schedule well-formedness: every operation reads before it inserts
(`toRead` = operations yet to read, `pending` = read but not inserted),
and no two operations on the same slide overlap. -/
def wfSched (ops : Nat → WriteOp) : List VerEv → List Nat → List Nat → Bool
  | [], toRead, pending => toRead.isEmpty && pending.isEmpty
  | .read i :: evs, toRead, pending =>
      decide (i ∈ toRead) &&
        decide (∀ j ∈ pending, (ops j).slideId ≠ (ops i).slideId) &&
        wfSched ops evs (toRead.erase i) (i :: pending)
  | .ins i :: evs, toRead, pending =>
      decide (i ∈ pending) && wfSched ops evs toRead (pending.erase i)

/-- Run a schedule over the version table: a read captures
`MAX(version)+1` for its operation's slide; an insert appends the row
built from the operation and its captured version.  No action ever
updates or deletes an existing row. -/
def runSched (ops : Nat → WriteOp) :
    List VerEv → List ImageVersionRow → (Nat → Nat) → List ImageVersionRow
  | [], rows, _ => rows
  | .read i :: evs, rows, cap =>
      runSched ops evs rows
        (fun j => if j = i then nextVersionForSlide rows (ops i).slideId else cap j)
  | .ins i :: evs, rows, cap =>
      runSched ops evs (rows ++
        [{ slideId := (ops i).slideId, version := cap i,
           promptText := (ops i).promptText, imagePath := (ops i).imagePath,
           provider := (ops i).provider, requestJson := (ops i).requestJson,
           responseJson := (ops i).responseJson }]) cap

/-- Per-slide contiguity: every slide's recorded versions are exactly
`1, 2, …, m` in insertion order. -/
def VersionInv (rows : List ImageVersionRow) : Prop :=
  ∀ s, versionsOfSlide rows s = List.range' 1 (versionsOfSlide rows s).length

theorem runSched_inv (ops : Nat → WriteOp) :
    ∀ (evs : List VerEv) (toRead pending : List Nat) (rows : List ImageVersionRow)
      (cap : Nat → Nat),
      wfSched ops evs toRead pending = true →
      VersionInv rows →
      (∀ i ∈ pending, cap i = nextVersionForSlide rows (ops i).slideId) →
      pending.Pairwise (fun a b => (ops a).slideId ≠ (ops b).slideId) →
      VersionInv (runSched ops evs rows cap) ∧
        rows <+: runSched ops evs rows cap := by
  intro evs
  induction evs with
  | nil =>
      intro toRead pending rows cap hwf hinv hcap hpw
      exact ⟨hinv, List.prefix_refl rows⟩
  | cons ev evs ih =>
      intro toRead pending rows cap hwf hinv hcap hpw
      cases ev with
      | read i =>
          simp only [wfSched, Bool.and_eq_true, decide_eq_true_eq] at hwf
          obtain ⟨⟨hmem, hnodup⟩, hwf'⟩ := hwf
          have hnotpend : i ∉ pending := by
            intro hc
            exact hnodup i hc rfl
          refine ih (toRead.erase i) (i :: pending) rows _ hwf' hinv ?_ ?_
          · intro j hj
            rcases List.mem_cons.1 hj with rfl | hj'
            · simp
            · have hne : j ≠ i := fun h => hnotpend (h ▸ hj')
              simp [hne, hcap j hj']
          · exact List.pairwise_cons.2 ⟨fun j hj => (hnodup j hj).symm, hpw⟩
      | ins i =>
          simp only [wfSched, Bool.and_eq_true, decide_eq_true_eq] at hwf
          obtain ⟨hmem, hwf'⟩ := hwf
          set r : ImageVersionRow :=
            { slideId := (ops i).slideId, version := cap i,
              promptText := (ops i).promptText, imagePath := (ops i).imagePath,
              provider := (ops i).provider, requestJson := (ops i).requestJson,
              responseJson := (ops i).responseJson } with hr
          have hcapi := hcap i hmem
          have hinv' : VersionInv (rows ++ [r]) := by
            intro s
            rw [versionsOfSlide_append]
            by_cases hs : r.slideId = s
            · rw [if_pos hs]
              have hmv : maxVersion rows s = (versionsOfSlide rows s).length :=
                maxVersion_of_contiguous rows s _ (hinv s)
              have hver : r.version = (versionsOfSlide rows s).length + 1 := by
                rw [hr]
                simp only
                rw [hcapi]
                unfold nextVersionForSlide
                rw [show (ops i).slideId = s from hs, hmv]
              have hconcat : List.range' 1 ((versionsOfSlide rows s).length + 1) 1 =
                  List.range' 1 (versionsOfSlide rows s).length 1 ++
                    [1 + 1 * (versionsOfSlide rows s).length] :=
                List.range'_concat 1 (versionsOfSlide rows s).length
              simp only [one_mul] at hconcat
              rw [hver, hinv s]
              simp only [List.length_append, List.length_range', List.length_cons,
                List.length_nil]
              rw [hconcat]
              congr 1
              · congr 1
                omega
            · rw [if_neg hs, List.append_nil]
              exact hinv s
          have hnodupPend : pending.Nodup :=
            hpw.imp (fun h => fun heq => h (heq ▸ rfl))
          have hcap' : ∀ j ∈ pending.erase i,
              cap j = nextVersionForSlide (rows ++ [r]) (ops j).slideId := by
            intro j hj
            have hjmem : j ∈ pending := List.mem_of_mem_erase hj
            have hji : j ≠ i := (List.Nodup.mem_erase_iff hnodupPend |>.1 hj).1
            have hslide : (ops j).slideId ≠ (ops i).slideId :=
              hpw.forall (fun a b h => h.symm) hjmem hmem hji
            rw [nextVersionForSlide_append_other rows r _ (by rw [hr]; exact fun h => hslide h.symm)]
            exact hcap j hjmem
          have hpw' : (pending.erase i).Pairwise
              (fun a b => (ops a).slideId ≠ (ops b).slideId) :=
            hpw.sublist (List.erase_sublist i pending)
          have hrec := ih toRead (pending.erase i) (rows ++ [r]) cap hwf' hinv' hcap' hpw'
          refine ⟨hrec.1, ?_⟩
          calc rows <+: rows ++ [r] := List.prefix_append rows [r]
            _ <+: runSched ops (VerEv.ins i :: evs) rows cap := by
                simpa [runSched] using hrec.2

/-- C1: over any well-formed interleaving of the image write paths
(Images stage units, manual regenerates, restores — each reading
`MAX(version)+1` and later inserting it), every slide's version list stays
exactly `1, 2, …, m` — starting at 1, strictly increasing, gap-free —
no matter how writes to other slides interleave, and no existing row is
ever updated, deleted or renumbered (the prior table is a prefix of the
final one). -/
theorem imageVersions_contiguous (ops : Nat → WriteOp) (evs : List VerEv)
    (toRead : List Nat) (rows : List ImageVersionRow)
    (hwf : wfSched ops evs toRead [] = true) (hinv : VersionInv rows) :
    VersionInv (runSched ops evs rows (fun _ => 0)) ∧
      rows <+: runSched ops evs rows (fun _ => 0) :=
  runSched_inv ops evs toRead [] rows (fun _ => 0) hwf hinv
    (fun i hi => absurd hi (List.not_mem_nil i)) List.Pairwise.nil

/-- Three interleaved writes: ops 0 and 2 target slide 0, op 1 targets
slide 1; op 1's read/insert overlaps both writes to slide 0. -/
def c1Ops : Nat → WriteOp := fun i =>
  { slideId := i % 2, promptText := "p" ++ toString i, imagePath := "img",
    provider := "vectorengine", requestJson := none, responseJson := none }

/-- Witness for `imageVersions_contiguous` on a concrete cross-slide
interleaving starting from an empty table. -/
theorem imageVersions_contiguous_witness :
    VersionInv (runSched c1Ops
      [.read 0, .read 1, .ins 0, .read 2, .ins 1, .ins 2] [] (fun _ => 0)) ∧
      ([] : List ImageVersionRow) <+: runSched c1Ops
        [.read 0, .read 1, .ins 0, .read 2, .ins 1, .ins 2] [] (fun _ => 0) :=
  imageVersions_contiguous c1Ops
    [.read 0, .read 1, .ins 0, .read 2, .ins 1, .ins 2] [0, 1, 2] []
    (by decide) (fun _ => rfl)

/-! ## Path containment (`ensureWithinProject`)

Identical helper in slideImageService.ts and exportService.ts.  Absolute
paths are modelled as their list of segments (each segment nonempty and
free of separators); `path.resolve(root, rel)` processes `rel` segment by
segment against the already-resolved root. -/

/-- Split a character list at a separator (the char-level equivalent of
`String.splitOn` for a one-character separator, which the kernel can
evaluate). -/
def splitOnChar (sep : Char) : List Char → List (List Char)
  | [] => [[]]
  | c :: cs =>
      let rest := splitOnChar sep cs
      if c = sep then [] :: rest
      else
        match rest with
        | [] => [[c]]
        | g :: gs => (c :: g) :: gs

/-- `String.prototype.trim()`: strip whitespace from both ends. -/
def jsTrim (s : String) : String :=
  String.mk (((s.data.dropWhile Char.isWhitespace).reverse.dropWhile
    Char.isWhitespace).reverse)

/-- `relPath.replace(/^\/+/, "").replace(/\\/g, "/")`, at the character
level. -/
def cleanRelPath (relPath : String) : List Char :=
  (relPath.data.dropWhile (fun c => c = '/')).map (fun c => if c = '\\' then '/' else c)

/-- `path.resolve(root, rel)` for an absolute `root`: `..` pops a segment
(stopping at the filesystem root), `.` and empty segments are skipped. -/
def resolveFromRoot (root : List String) (relSegs : List String) : List String :=
  relSegs.foldl (fun acc seg =>
    if seg = ".." then acc.dropLast
    else if seg = "." ∨ seg = "" then acc
    else acc ++ [seg]) root

/-- `ensureWithinProject(projectRootPath, relPath)`: resolves `relPath`
against the project root and fails closed unless the result is the root
itself or lies under it (`abs.startsWith(root + path.sep) || abs === root`,
which on segment lists is exactly the prefix test). -/
def ensureWithinProject (root : List String) (relPath : String) :
    Except String (List String) :=
  let abs := resolveFromRoot root ((splitOnChar '/' (cleanRelPath relPath)).map String.mk)
  if root.isPrefixOf abs then .ok abs else .error "文件路径无效"

/-! ## Project database and file system

One SQLite project database: the `slides` and `slide_image_versions`
tables as row lists (`outline_versions` / `theme_versions` enter only via
their latest parsed row, passed as an `Option` parameter).  `content_json`
is modelled as the parsed payload — `NULL` or unparsable JSON is `none`.
The file system maps project-relative paths to byte lists; a write
shadows earlier entries. -/

structure SlideContent where
  bullets : List String
  speakerNotes : String
  imageDescription : String
  deriving Repr, DecidableEq

structure Theme where
  styleName : String
  stylePrompt : String
  deriving Repr, DecidableEq

/-- `buildSlidePrompt` (ai/promptBuilder.ts): the `.filter(Boolean)` drops
the empty-string spacer entries before joining. -/
def buildSlidePrompt (theme : Theme) (slideTitle : String) (bullets : List String)
    (imageDescription : String) : String :=
  let bulletsText := String.intercalate "\n" (bullets.map (fun b => "- " ++ b))
  String.intercalate "\n"
    (([jsTrim theme.stylePrompt,
       "",
       "请生成一张 16:9 的 PPT 页面图片（横版），适合投影展示，文字清晰、留白充足。",
       "页面内容（请把文字直接排版进画面里，中文）：",
       "标题：" ++ slideTitle,
       "要点：",
       bulletsText,
       "",
       "画面/插画/图形设计：",
       jsTrim imageDescription,
       ""] : List String).filter (fun s => s ≠ ""))

structure SlideRow where
  id : Nat
  projectId : Nat
  sectionIndex : Nat
  slideIndex : Nat
  title : String
  summary : String
  content : Option SlideContent
  status : String
  errorMessage : Option String
  deriving Repr, DecidableEq

structure ProjectDb where
  slides : List SlideRow
  imageVersions : List ImageVersionRow
  deriving Repr, DecidableEq

structure Fs where
  files : List (String × List Nat)
  deriving Repr, DecidableEq

def fsRead (fs : Fs) (p : String) : Option (List Nat) :=
  (fs.files.find? (fun f => decide (f.1 = p))).map (fun f => f.2)

def fsWrite (fs : Fs) (p : String) (b : List Nat) : Fs :=
  ⟨(p, b) :: fs.files⟩

/-- `setSlideStatus` (slideImageService.ts / generatePipeline.ts):
`UPDATE slides SET status, error_message WHERE id = ?`.  The pipeline
variant also COALESCEs `content_json`; status updates never change it, so
content is left untouched here. -/
def setSlideStatus (db : ProjectDb) (slideId : Nat) (status : String)
    (errorMessage : Option String) : ProjectDb :=
  { db with slides := db.slides.map (fun s =>
      if s.id = slideId then { s with status := status, errorMessage := errorMessage }
      else s) }

/-- `SELECT ... FROM slides WHERE id = ? AND project_id = ?`. -/
def findSlide (db : ProjectDb) (projectId slideId : Nat) : Option SlideRow :=
  db.slides.find? (fun s => decide (s.id = slideId) && decide (s.projectId = projectId))

/-- `SELECT COUNT(1) FROM slides WHERE project_id = ? AND (section_index <
? OR (section_index = ? AND slide_index < ?))`: the slide's deck index. -/
def deckIndexOf (db : ProjectDb) (projectId sec idx : Nat) : Nat :=
  (db.slides.filter (fun s => decide (s.projectId = projectId ∧
      (s.sectionIndex < sec ∨ (s.sectionIndex = sec ∧ s.slideIndex < idx))))).length

/-- `SELECT ... FROM slide_image_versions WHERE slide_id = ? AND version = ?`. -/
def findVersionRow (rows : List ImageVersionRow) (slideId version : Nat) :
    Option ImageVersionRow :=
  rows.find? (fun r => decide (r.slideId = slideId) && decide (r.version = version))

/-- `SELECT ... WHERE slide_id = ? ORDER BY version DESC LIMIT 1`. -/
def latestVersionRow (rows : List ImageVersionRow) (slideId : Nat) :
    Option ImageVersionRow :=
  (rows.filter (fun r => decide (r.slideId = slideId))).foldl
    (fun acc r => match acc with
      | none => some r
      | some a => if a.version < r.version then some r else acc) none

def pad4 (n : Nat) : String :=
  let s := toString n
  String.mk (List.replicate (4 - s.length) '0') ++ s

def slideDirName (deckIndex : Nat) : String :=
  "slide-" ++ pad4 (deckIndex + 1)

/-- `path.extname(p).replace(".", "")`: the basename's extension without
the dot; empty when there is no dot or the basename's only dot leads it. -/
def extNameNoDot (p : String) : String :=
  let base := (splitOnChar '/' p.data).getLastD []
  let parts := (splitOnChar '.' base).map String.mk
  if parts.length ≤ 1 then ""
  else if parts.length = 2 ∧ parts.headD "" = "" then ""
  else parts.getLastD ""

/-- Observable effects of an operation, in program order. -/
inductive FxEvent
  | fsWrite (path : String)
  | dbInsertVersion (slideId version : Nat) (path : String)
  | dbSetStatus (slideId : Nat) (status : String)
  deriving Repr, DecidableEq

/-- Every version-row insert is preceded by a file-system write of the
path the row records (scanning left to right with the set of written
paths). -/
def insertsPrecededByWrite : List FxEvent → List String → Bool
  | [], _ => true
  | .fsWrite p :: evs, written => insertsPrecededByWrite evs (p :: written)
  | .dbInsertVersion _ _ p :: evs, written =>
      decide (p ∈ written) && insertsPrecededByWrite evs written
  | .dbSetStatus _ _ :: evs, written => insertsPrecededByWrite evs written

/-- The result of one service operation: the passed-through stores, the
effect trace, and the value or thrown message. -/
structure OpResult (α : Type) where
  db : ProjectDb
  fs : Fs
  events : List FxEvent
  out : Except String α

/-- A successful image-service response as consumed by
`generateImageToProject`: the decoded bytes, the extension derived from
the mime type, and the raw request/response JSON recorded as provenance
(inline data already truncated). -/
structure GenOk where
  bytes : List Nat
  ext : String
  requestJson : String
  responseJson : String
  deriving Repr, DecidableEq

/-- `generateImageToProject` (projectService.ts): on success the image
bytes are written to `images/slide-XXXX/v{version}.{ext}` — before the
caller inserts any metadata row — and the relative path is returned; on
failure (missing config, network error, timeout, no inline image found)
it throws without having produced the file. -/
def generateImageToProject (fs : Fs) (deckIndex version : Nat)
    (gen : Except String GenOk) :
    Fs × List FxEvent × Except String (String × GenOk) :=
  match gen with
  | .error e => (fs, [], .error e)
  | .ok g =>
      let relPath := "images/" ++ slideDirName deckIndex ++ "/v" ++ toString version
        ++ "." ++ g.ext
      (fsWrite fs relPath g.bytes, [.fsWrite relPath], .ok (relPath, g))

/-- The destination of a restore:
`images/slide-XXXX/v{next}.{ext of the source image, defaulting to png}`. -/
def restoreDestPath (db : ProjectDb) (projectId : Nat) (slide : SlideRow)
    (src : ImageVersionRow) (newVer : Nat) : String :=
  "images/"
    ++ slideDirName (deckIndexOf db projectId slide.sectionIndex slide.slideIndex)
    ++ "/v" ++ toString newVer ++ "."
    ++ (if extNameNoDot src.imagePath = "" then "png" else extNameNoDot src.imagePath)

/-- `restoreSlideImageVersion` (slideImageService.ts).  `root` is the
resolved project root; the file system is keyed by project-relative
paths, over which `ensureWithinProject` validates the resolved absolute
paths before the copy. -/
def restoreSlideImageVersion (db : ProjectDb) (fs : Fs) (root : List String)
    (projectId slideId version : Nat) : OpResult (Nat × String × String) :=
  match findSlide db projectId slideId with
  | none => ⟨db, fs, [], .error "页面不存在。"⟩
  | some slide =>
      match findVersionRow db.imageVersions slideId version with
      | none => ⟨db, fs, [], .error "图片版本不存在。"⟩
      | some src =>
          let nextVer := nextVersionForSlide db.imageVersions slideId
          let db1 := setSlideStatus db slideId "generating_image" none
          let ev1 : List FxEvent := [.dbSetStatus slideId "generating_image"]
          let destRelPath := restoreDestPath db projectId slide src nextVer
          match ensureWithinProject root src.imagePath,
              ensureWithinProject root destRelPath with
          | .error e, _ =>
              ⟨setSlideStatus db1 slideId "error" (some e), fs,
                ev1 ++ [.dbSetStatus slideId "error"], .error e⟩
          | _, .error e =>
              ⟨setSlideStatus db1 slideId "error" (some e), fs,
                ev1 ++ [.dbSetStatus slideId "error"], .error e⟩
          | .ok _, .ok _ =>
              match fsRead fs src.imagePath with
              | none =>
                  let e := "ENOENT: no such file or directory"
                  ⟨setSlideStatus db1 slideId "error" (some e), fs,
                    ev1 ++ [.dbSetStatus slideId "error"], .error e⟩
              | some bytes =>
                  let fs1 := fsWrite fs destRelPath bytes
                  let newRow : ImageVersionRow :=
                    { slideId := slideId, version := nextVer,
                      promptText := src.promptText, imagePath := destRelPath,
                      provider := "restore", requestJson := none,
                      responseJson := none }
                  let db2 := setSlideStatus
                    { db1 with imageVersions := db1.imageVersions ++ [newRow] }
                    slideId "ready" none
                  ⟨db2, fs1,
                    ev1 ++ [.fsWrite destRelPath,
                      .dbInsertVersion slideId nextVer destRelPath,
                      .dbSetStatus slideId "ready"],
                    .ok (nextVer, src.promptText, destRelPath)⟩

/-- JS `||` on strings (`null` is modelled as `""`; JS treats both as
falsy in the prompt-resolution chain). -/
def jsOr (a b : String) : String := if a = "" then b else a

/-- The prompt-resolution chain of `regenerateSlideImage`
(`input || (text_ready && fromContent) || latestPrompt || fromContent ||
""`; `null` and `""` are both falsy to `||`). -/
def resolveRegeneratePrompt (db : ProjectDb) (slideId : Nat) (slide : SlideRow)
    (promptInput : Option String) (latestTheme : Option Theme) : String :=
  let latestPrompt := match latestVersionRow db.imageVersions slideId with
    | some r => r.promptText
    | none => ""
  let fromInput := match promptInput with
    | none => ""
    | some p => jsTrim p
  let fromContent := match latestTheme, slide.content with
    | some th, some c => buildSlidePrompt th slide.title c.bullets c.imageDescription
    | _, _ => ""
  jsOr (jsOr (jsOr fromInput
    (if slide.status = "text_ready" ∧ fromContent ≠ "" then fromContent else ""))
    latestPrompt) fromContent

/-- `regenerateSlideImage` (slideImageService.ts).  `latestTheme` is the
parsed latest `theme_versions` row; `gen` is the image service's
response. -/
def regenerateSlideImage (db : ProjectDb) (fs : Fs) (projectId slideId : Nat)
    (promptInput : Option String) (latestTheme : Option Theme)
    (gen : Except String GenOk) : OpResult (Nat × String × String) :=
  match findSlide db projectId slideId with
  | none => ⟨db, fs, [], .error "页面不存在。"⟩
  | some slide =>
      let deckIndex := deckIndexOf db projectId slide.sectionIndex slide.slideIndex
      let nextVer := nextVersionForSlide db.imageVersions slideId
      let promptText := resolveRegeneratePrompt db slideId slide promptInput latestTheme
      if promptText = "" then ⟨db, fs, [], .error "没有可用的提示词，无法重新生成。"⟩
      else
        let db1 := setSlideStatus db slideId "generating_image" none
        let ev1 : List FxEvent := [.dbSetStatus slideId "generating_image"]
        match generateImageToProject fs deckIndex nextVer gen with
        | (_, _, .error e) =>
            ⟨setSlideStatus db1 slideId "error" (some e), fs,
              ev1 ++ [.dbSetStatus slideId "error"], .error e⟩
        | (fs1, gevs, .ok (relPath, g)) =>
            let newRow : ImageVersionRow :=
              { slideId := slideId, version := nextVer, promptText := promptText,
                imagePath := relPath, provider := "vectorengine",
                requestJson := some g.requestJson, responseJson := some g.responseJson }
            let db2 := setSlideStatus
              { db1 with imageVersions := db1.imageVersions ++ [newRow] }
              slideId "ready" none
            ⟨db2, fs1, ev1 ++ gevs ++ [.dbInsertVersion slideId nextVer relPath,
              .dbSetStatus slideId "ready"], .ok (nextVer, promptText, relPath)⟩

/-! ## The Images stage (`runGenerateImagesStep`, jobs/generatePipeline.ts) -/

/-- The job record's observable part (`jobStore.ts`): status, current
step, the progress counters, and the failure message a rejected stage
leaves behind (server.ts attaches it via `.catch`). -/
structure JobState where
  status : String
  step : String
  totalSlides : Nat
  completedSlides : Nat
  failedSlides : Nat
  error : Option String
  deriving Repr, DecidableEq

/-- `SELECT ... FROM slides WHERE project_id = ? ORDER BY section_index
ASC, slide_index ASC`. -/
def projectSlides (db : ProjectDb) (projectId : Nat) : List SlideRow :=
  (db.slides.filter (fun s => decide (s.projectId = projectId))).insertionSort
    (fun a b => a.sectionIndex < b.sectionIndex ∨
      (a.sectionIndex = b.sectionIndex ∧ a.slideIndex ≤ b.slideIndex))

/-- The status and error message currently recorded for a slide id. -/
def slideStatusById (db : ProjectDb) (id : Nat) : Option (String × Option String) :=
  (db.slides.find? (fun s => decide (s.id = id))).map (fun s => (s.status, s.errorMessage))

/-- One Images-stage unit (the `tasks` closure of `runGenerateImagesStep`)
acting on the accumulated state `(db, fs, events, completed, failed)`.
The concurrent units target pairwise distinct slides, so the fold is a
linearisation of the stage's interleaving (C1 covers the version reads
and inserts under arbitrary cross-slide interleaving). -/
def runImagesUnit (theme : Theme) (gen : Nat → Except String GenOk)
    (acc : ProjectDb × Fs × List FxEvent × Nat × Nat)
    (su : Nat × SlideRow) : ProjectDb × Fs × List FxEvent × Nat × Nat :=
  let (db, fs, evs, completed, failed) := acc
  let (deckIndex, s) := su
  match s.content with
  | none =>
      (setSlideStatus db s.id "error" (some "内容未生成"), fs,
        evs ++ [.dbSetStatus s.id "error"], completed, failed + 1)
  | some c =>
      let promptText := buildSlidePrompt theme s.title c.bullets c.imageDescription
      let db1 := setSlideStatus db s.id "generating_image" none
      let nextVer := nextVersionForSlide db1.imageVersions s.id
      match generateImageToProject fs deckIndex nextVer (gen deckIndex) with
      | (_, _, .error e) =>
          (setSlideStatus db1 s.id "error" (some e), fs,
            evs ++ [.dbSetStatus s.id "generating_image", .dbSetStatus s.id "error"],
            completed, failed + 1)
      | (fs1, gevs, .ok (relPath, g)) =>
          let newRow : ImageVersionRow :=
            { slideId := s.id, version := nextVer, promptText := promptText,
              imagePath := relPath, provider := "vectorengine",
              requestJson := some g.requestJson, responseJson := some g.responseJson }
          let db2 := setSlideStatus
            { db1 with imageVersions := db1.imageVersions ++ [newRow] }
            s.id "ready" none
          (db2, fs1,
            evs ++ [.dbSetStatus s.id "generating_image"] ++ gevs ++
              [.dbInsertVersion s.id nextVer relPath, .dbSetStatus s.id "ready"],
            completed + 1, failed)

/-- `runGenerateImagesStep`: reads the latest theme (stage-fatal when
missing), lists the deck (stage-fatal when empty), runs one unit per
slide — a unit failure is caught inside the unit and only recorded on its
slide — and completes the job with the final counters.  `gen` gives the
image service's response for each deck index. -/
def runGenerateImagesStep (db : ProjectDb) (fs : Fs) (projectId : Nat)
    (latestTheme : Option Theme) (gen : Nat → Except String GenOk) :
    ProjectDb × Fs × List FxEvent × JobState :=
  match latestTheme with
  | none =>
      (db, fs, [],
        { status := "failed", step := "images", totalSlides := 0,
          completedSlides := 0, failedSlides := 0, error := some "风格尚未生成" })
  | some theme =>
      let slides := projectSlides db projectId
      if slides.isEmpty then
        (db, fs, [],
          { status := "failed", step := "images", totalSlides := 0,
            completedSlides := 0, failedSlides := 0,
            error := some "没有页面可生成，请先生成大纲" })
      else
        let folded := slides.enum.foldl (runImagesUnit theme gen) (db, fs, [], 0, 0)
        (folded.1, folded.2.1, folded.2.2.1,
          { status := "completed", step := "images", totalSlides := slides.length,
            completedSlides := folded.2.2.2.1, failedSlides := folded.2.2.2.2,
            error := none })

/-- What a unit's outcome is for a slide at a deck index: missing content
fails with `内容未生成`, otherwise the image call's result decides. -/
def unitOutcome (gen : Nat → Except String GenOk) (deckIndex : Nat)
    (s : SlideRow) : Except String Unit :=
  match s.content with
  | none => .error "内容未生成"
  | some _ =>
      match gen deckIndex with
      | .error e => .error e
      | .ok _ => .ok ()

/-! ## The Outline stage's destructive commit (`runGenerateOutlineStep`) -/

structure OutlineSlide where
  title : String
  summary : String
  deriving Repr, DecidableEq

structure OutlineSection where
  title : String
  slides : List OutlineSlide
  deriving Repr, DecidableEq

structure Outline where
  sections : List OutlineSection
  deriving Repr, DecidableEq

/-- `clearSlides` (generatePipeline.ts): delete the project's slides'
image versions, then the slides. -/
def clearSlides (db : ProjectDb) (projectId : Nat) : ProjectDb :=
  let slideIds := (db.slides.filter (fun s => decide (s.projectId = projectId))).map
    (fun s => s.id)
  { slides := db.slides.filter (fun s => decide (¬ s.projectId = projectId)),
    imageVersions := db.imageVersions.filter (fun v => decide (v.slideId ∉ slideIds)) }

/-- The slide rows the Outline stage inserts: one per outline slide, in
`pending` status with no content or error, positioned by
`(sectionIndex, slideIndex)`.  `freshIds` supplies the generated UUIDs by
deck position. -/
def outlineSlideRows (projectId : Nat) (outline : Outline) (freshIds : Nat → Nat) :
    List SlideRow :=
  (outline.sections.enum.flatMap (fun sec =>
    sec.2.slides.enum.map (fun sl => (sec.1, sl.1, sl.2)))).enum.map
    (fun p =>
      { id := freshIds p.1, projectId := projectId, sectionIndex := p.2.1,
        slideIndex := p.2.2.1, title := p.2.2.2.title, summary := p.2.2.2.summary,
        content := none, status := "pending", errorMessage := none })

/-- The write transaction of a successful `runGenerateOutlineStep`:
`clearSlides` first, then the insertion of the freshly generated rows
(the `outline_versions` insert is not modelled — it does not touch slides
or image versions). -/
def runGenerateOutlineCommit (db : ProjectDb) (projectId : Nat) (outline : Outline)
    (freshIds : Nat → Nat) : ProjectDb :=
  let db1 := clearSlides db projectId
  { db1 with slides := db1.slides ++ outlineSlideRows projectId outline freshIds }

/-! ### Slide status lookups under updates -/

/-- The per-row update `setSlideStatus` applies. -/
def updSlide (sid : Nat) (st : String) (em : Option String) (s : SlideRow) : SlideRow :=
  if s.id = sid then { s with status := st, errorMessage := em } else s

theorem updSlide_id (sid : Nat) (st : String) (em : Option String) (s : SlideRow) :
    (updSlide sid st em s).id = s.id := by
  unfold updSlide
  split <;> rfl

theorem setSlideStatus_slides (db : ProjectDb) (sid : Nat) (st : String)
    (em : Option String) :
    (setSlideStatus db sid st em).slides = db.slides.map (updSlide sid st em) := rfl

theorem findStatus_upd_same (l : List SlideRow) (sid : Nat) (st : String)
    (em : Option String) (h : (l.find? (fun s => decide (s.id = sid))).isSome = true) :
    Option.map (fun s => (s.status, s.errorMessage))
      ((l.map (updSlide sid st em)).find? (fun s => decide (s.id = sid)))
      = some (st, em) := by
  induction l with
  | nil => simp at h
  | cons s l ih =>
      by_cases hs : s.id = sid
      · rw [List.map_cons,
          List.find?_cons_of_pos _ (by simp [updSlide_id, hs])]
        simp [updSlide, hs]
      · rw [List.map_cons,
          List.find?_cons_of_neg _ (by simp [updSlide_id, hs])]
        rw [List.find?_cons_of_neg _ (by simpa using hs)] at h
        exact ih h

theorem findStatus_upd_other (l : List SlideRow) (sid id : Nat) (st : String)
    (em : Option String) (h : id ≠ sid) :
    Option.map (fun s => (s.status, s.errorMessage))
      ((l.map (updSlide sid st em)).find? (fun s => decide (s.id = id)))
      = Option.map (fun s => (s.status, s.errorMessage))
          (l.find? (fun s => decide (s.id = id))) := by
  induction l with
  | nil => simp
  | cons s l ih =>
      by_cases hs : s.id = id
      · have hns : updSlide sid st em s = s := by
          unfold updSlide
          rw [if_neg (by rw [hs]; exact h)]
        rw [List.map_cons, hns,
          List.find?_cons_of_pos _ (by simpa using hs),
          List.find?_cons_of_pos _ (by simpa using hs)]
      · rw [List.map_cons,
          List.find?_cons_of_neg _ (by simp [updSlide_id, hs]),
          List.find?_cons_of_neg _ (by simpa using hs)]
        exact ih

theorem findStatus_upd_isSome (l : List SlideRow) (sid id : Nat) (st : String)
    (em : Option String) :
    ((l.map (updSlide sid st em)).find? (fun s => decide (s.id = id))).isSome
      = (l.find? (fun s => decide (s.id = id))).isSome := by
  induction l with
  | nil => simp
  | cons s l ih =>
      by_cases hs : s.id = id
      · rw [List.map_cons,
          List.find?_cons_of_pos _ (by simp [updSlide_id, hs]),
          List.find?_cons_of_pos _ (by simpa using hs)]
        rfl
      · rw [List.map_cons,
          List.find?_cons_of_neg _ (by simp [updSlide_id, hs]),
          List.find?_cons_of_neg _ (by simpa using hs)]
        exact ih

theorem isSome_slideStatusById (db : ProjectDb) (id : Nat) :
    (slideStatusById db id).isSome
      = (db.slides.find? (fun s => decide (s.id = id))).isSome := by
  unfold slideStatusById
  cases db.slides.find? (fun s => decide (s.id = id)) <;> rfl

theorem slideStatusById_set_same (db : ProjectDb) (sid : Nat) (st : String)
    (em : Option String) (h : (slideStatusById db sid).isSome = true) :
    slideStatusById (setSlideStatus db sid st em) sid = some (st, em) := by
  rw [isSome_slideStatusById] at h
  unfold slideStatusById
  rw [setSlideStatus_slides]
  exact findStatus_upd_same db.slides sid st em h

theorem slideStatusById_set_other (db : ProjectDb) (sid id : Nat) (st : String)
    (em : Option String) (h : id ≠ sid) :
    slideStatusById (setSlideStatus db sid st em) id = slideStatusById db id := by
  unfold slideStatusById
  rw [setSlideStatus_slides]
  exact findStatus_upd_other db.slides sid id st em h

theorem slideStatusById_isSome_set (db : ProjectDb) (sid id : Nat) (st : String)
    (em : Option String) :
    (slideStatusById (setSlideStatus db sid st em) id).isSome
      = (slideStatusById db id).isSome := by
  rw [isSome_slideStatusById, isSome_slideStatusById, setSlideStatus_slides]
  exact findStatus_upd_isSome db.slides sid id st em

theorem slideStatusById_isSome_of_findSlide (db : ProjectDb) (pid sid : Nat)
    (slide : SlideRow) (h : findSlide db pid sid = some slide) :
    (slideStatusById db sid).isSome = true := by
  unfold findSlide at h
  have hmem := List.mem_of_find?_eq_some h
  have hpred := List.find?_some h
  simp only [Bool.and_eq_true, decide_eq_true_eq] at hpred
  rw [isSome_slideStatusById, List.find?_isSome]
  exact ⟨slide, hmem, by simp [hpred.1]⟩

theorem fsRead_fsWrite_same (fs : Fs) (p : String) (b : List Nat) :
    fsRead (fsWrite fs p b) p = some b := by
  simp [fsRead, fsWrite]

/-- C2: for a slide whose versions are `1..M`, restoring an existing
version `V` appends exactly one new row with version `M+1`, the same
prompt text as `V`'s row, no request/response provenance, and an image
file whose bytes are a copy of `V`'s; the slide ends in `ready` and rows
`1..M` are untouched.  Restoring a version that does not exist fails
without touching the database or the file system. -/
theorem restoreSlideImageVersion_spec (db : ProjectDb) (fs : Fs)
    (root : List String) (projectId slideId V M : Nat) (slide : SlideRow)
    (hslide : findSlide db projectId slideId = some slide)
    (hvers : versionsOfSlide db.imageVersions slideId = List.range' 1 M) :
    (∀ src bytes absS absD,
      findVersionRow db.imageVersions slideId V = some src →
      ensureWithinProject root src.imagePath = .ok absS →
      ensureWithinProject root (restoreDestPath db projectId slide src (M + 1))
        = .ok absD →
      fsRead fs src.imagePath = some bytes →
      (restoreSlideImageVersion db fs root projectId slideId V).out
          = .ok (M + 1, src.promptText, restoreDestPath db projectId slide src (M + 1))
        ∧ (restoreSlideImageVersion db fs root projectId slideId V).db.imageVersions
            = db.imageVersions ++
              [{ slideId := slideId, version := M + 1, promptText := src.promptText,
                 imagePath := restoreDestPath db projectId slide src (M + 1),
                 provider := "restore", requestJson := none, responseJson := none }]
        ∧ fsRead (restoreSlideImageVersion db fs root projectId slideId V).fs
            (restoreDestPath db projectId slide src (M + 1)) = some bytes
        ∧ slideStatusById (restoreSlideImageVersion db fs root projectId slideId V).db
            slideId = some ("ready", none)
        ∧ versionsOfSlide
            (restoreSlideImageVersion db fs root projectId slideId V).db.imageVersions
            slideId = List.range' 1 (M + 1)
        ∧ db.imageVersions <+:
            (restoreSlideImageVersion db fs root projectId slideId V).db.imageVersions)
  ∧ (findVersionRow db.imageVersions slideId V = none →
      restoreSlideImageVersion db fs root projectId slideId V
        = ⟨db, fs, [], .error "图片版本不存在。"⟩) := by
  have hnv : nextVersionForSlide db.imageVersions slideId = M + 1 := by
    unfold nextVersionForSlide
    rw [maxVersion_of_contiguous db.imageVersions slideId M hvers]
  constructor
  · intro src bytes absS absD hsrc hw1 hw2 hbytes
    have hred : restoreSlideImageVersion db fs root projectId slideId V =
        ⟨setSlideStatus
            { setSlideStatus db slideId "generating_image" none with
              imageVersions :=
                (setSlideStatus db slideId "generating_image" none).imageVersions ++
                  [{ slideId := slideId, version := M + 1,
                     promptText := src.promptText,
                     imagePath := restoreDestPath db projectId slide src (M + 1),
                     provider := "restore", requestJson := none,
                     responseJson := none }] }
            slideId "ready" none,
          fsWrite fs (restoreDestPath db projectId slide src (M + 1)) bytes,
          [.dbSetStatus slideId "generating_image",
            .fsWrite (restoreDestPath db projectId slide src (M + 1)),
            .dbInsertVersion slideId (M + 1)
              (restoreDestPath db projectId slide src (M + 1)),
            .dbSetStatus slideId "ready"],
          .ok (M + 1, src.promptText,
            restoreDestPath db projectId slide src (M + 1))⟩ := by
      unfold restoreSlideImageVersion
      rw [hslide, hsrc]
      simp only [hnv, hw1, hw2, hbytes]
      rfl
    have hiv : (restoreSlideImageVersion db fs root projectId slideId V).db.imageVersions
        = db.imageVersions ++
          [{ slideId := slideId, version := M + 1, promptText := src.promptText,
             imagePath := restoreDestPath db projectId slide src (M + 1),
             provider := "restore", requestJson := none, responseJson := none }] := by
      rw [hred]
      rfl
    refine ⟨by rw [hred], hiv, by rw [hred]; exact fsRead_fsWrite_same _ _ _, ?_, ?_, ?_⟩
    · rw [hred]
      apply slideStatusById_set_same
      have h1 : (slideStatusById db slideId).isSome = true :=
        slideStatusById_isSome_of_findSlide db projectId slideId slide hslide
      calc (slideStatusById _ slideId).isSome
          = (slideStatusById (setSlideStatus db slideId "generating_image" none)
              slideId).isSome := rfl
        _ = (slideStatusById db slideId).isSome :=
            slideStatusById_isSome_set db slideId slideId "generating_image" none
        _ = true := h1
    · rw [hiv, versionsOfSlide_append, if_pos rfl, hvers]
      show List.range' 1 M ++ [M + 1] = List.range' 1 (M + 1)
      have hconcat : List.range' 1 (M + 1) 1 =
          List.range' 1 M 1 ++ [1 + 1 * M] := List.range'_concat 1 M
      simp only [one_mul] at hconcat
      rw [hconcat, Nat.add_comm 1 M]
    · rw [hiv]
      exact List.prefix_append _ _
  · intro hnone
    unfold restoreSlideImageVersion
    rw [hslide, hnone]

/-- Concrete data for the restore/regenerate witnesses: one slide (id 7,
project 1) with two recorded versions, and the version-1 image file on
disk. -/
def c2Slide : SlideRow :=
  { id := 7, projectId := 1, sectionIndex := 0, slideIndex := 0,
    title := "封面", summary := "总览", content := none, status := "ready",
    errorMessage := none }

def c2Row1 : ImageVersionRow :=
  { slideId := 7, version := 1, promptText := "提示词一",
    imagePath := "images/slide-0001/v1.png", provider := "vectorengine",
    requestJson := some "req1", responseJson := some "resp1" }

def c2Row2 : ImageVersionRow :=
  { slideId := 7, version := 2, promptText := "提示词二",
    imagePath := "images/slide-0001/v2.png", provider := "vectorengine",
    requestJson := some "req2", responseJson := some "resp2" }

def c2Db : ProjectDb := { slides := [c2Slide], imageVersions := [c2Row1, c2Row2] }

def c2Fs : Fs :=
  { files := [("images/slide-0001/v1.png", [1, 2, 3]),
              ("images/slide-0001/v2.png", [4, 5, 6])] }

/-- Witness for `restoreSlideImageVersion_spec`: restoring version 1 of a
slide with versions 1..2 appends version 3 with version 1's prompt and
bytes; restoring version 9 fails without a change. -/
theorem restoreSlideImageVersion_spec_witness :
    ((restoreSlideImageVersion c2Db c2Fs ["home", "proj"] 1 7 1).out
        = .ok (3, "提示词一", restoreDestPath c2Db 1 c2Slide c2Row1 3)
      ∧ slideStatusById (restoreSlideImageVersion c2Db c2Fs ["home", "proj"] 1 7 1).db 7
          = some ("ready", none))
    ∧ restoreSlideImageVersion c2Db c2Fs ["home", "proj"] 1 7 9
        = ⟨c2Db, c2Fs, [], .error "图片版本不存在。"⟩ := by
  have hA := (restoreSlideImageVersion_spec c2Db c2Fs ["home", "proj"] 1 7 1 2 c2Slide
      (by rfl) (by rfl)).1 c2Row1 [1, 2, 3]
    (["home", "proj"] ++ ["images", "slide-0001", "v1.png"])
    (["home", "proj"] ++ ["images", "slide-0001", "v3.png"])
    (by rfl) (by decide) (by decide) (by rfl)
  have hB := (restoreSlideImageVersion_spec c2Db c2Fs ["home", "proj"] 1 7 9 2 c2Slide
      (by rfl) (by rfl)).2 (by rfl)
  exact ⟨⟨hA.1, hA.2.2.2.1⟩, hB⟩

theorem insertsPrecededByWrite_append_of (xs ys : List FxEvent) (w : List String)
    (hx : insertsPrecededByWrite xs w = true)
    (hy : ∀ w', insertsPrecededByWrite ys w' = true) :
    insertsPrecededByWrite (xs ++ ys) w = true := by
  induction xs generalizing w with
  | nil => simpa using hy w
  | cons e xs ih =>
      cases e with
      | fsWrite p =>
          exact ih (p :: w) (by simpa [insertsPrecededByWrite] using hx)
      | dbInsertVersion sid v p =>
          simp only [List.cons_append, insertsPrecededByWrite, Bool.and_eq_true] at hx ⊢
          exact ⟨hx.1, ih w hx.2⟩
      | dbSetStatus sid st =>
          exact ih w (by simpa [insertsPrecededByWrite] using hx)

/-- Each Images-stage unit appends a self-contained block of events: any
version row it inserts records a path it wrote just before. -/
theorem runImagesUnit_events (theme : Theme) (gen : Nat → Except String GenOk)
    (acc : ProjectDb × Fs × List FxEvent × Nat × Nat) (su : Nat × SlideRow) :
    ∃ unitEvs, (runImagesUnit theme gen acc su).2.2.1 = acc.2.2.1 ++ unitEvs ∧
      ∀ w, insertsPrecededByWrite unitEvs w = true := by
  obtain ⟨db, fs, evs, c, f⟩ := acc
  obtain ⟨i, s⟩ := su
  unfold runImagesUnit
  rcases hc : s.content with _ | cont
  · refine ⟨[.dbSetStatus s.id "error"], ?_, fun w => rfl⟩
    simp only [hc]
  · rcases hg : gen i with e | g
    · refine ⟨[.dbSetStatus s.id "generating_image", .dbSetStatus s.id "error"], ?_, fun w => rfl⟩
      simp only [hc, generateImageToProject, hg]
    · refine ⟨[.dbSetStatus s.id "generating_image",
        .fsWrite ("images/" ++ slideDirName i ++ "/v"
          ++ toString (nextVersionForSlide
              (setSlideStatus db s.id "generating_image" none).imageVersions s.id)
          ++ "." ++ g.ext),
        .dbInsertVersion s.id
          (nextVersionForSlide
            (setSlideStatus db s.id "generating_image" none).imageVersions s.id)
          ("images/" ++ slideDirName i ++ "/v"
            ++ toString (nextVersionForSlide
                (setSlideStatus db s.id "generating_image" none).imageVersions s.id)
            ++ "." ++ g.ext),
        .dbSetStatus s.id "ready"], ?_, ?_⟩
      · simp only [hc, generateImageToProject, hg]
        simp [List.append_assoc]
      · intro w
        simp [insertsPrecededByWrite]

theorem foldl_runImagesUnit_inserts (theme : Theme) (gen : Nat → Except String GenOk) :
    ∀ (l : List (Nat × SlideRow)) (acc : ProjectDb × Fs × List FxEvent × Nat × Nat),
      insertsPrecededByWrite acc.2.2.1 [] = true →
      insertsPrecededByWrite ((l.foldl (runImagesUnit theme gen) acc).2.2.1) [] = true := by
  intro l
  induction l with
  | nil => intro acc h; simpa using h
  | cons su l ih =>
      intro acc h
      simp only [List.foldl_cons]
      apply ih
      obtain ⟨unitEvs, hevs, hunit⟩ := runImagesUnit_events theme gen acc su
      rw [hevs]
      exact insertsPrecededByWrite_append_of _ _ _ h hunit

/-- C3: a failure after work on the slide has started — the image call of
a regenerate, or the copy of a restore — leaves the slide in `error` with
the message attached, inserts no `slide_image_versions` row, and leaves
the file system as it was; and on every path of regenerate, restore and
the Images stage, any inserted version row's image file was written
before the insert. -/
theorem imageFailure_leaves_no_partial_row (db : ProjectDb) (fs : Fs)
    (root : List String) (projectId slideId V : Nat) :
    (∀ (promptInput : Option String) (latestTheme : Option Theme)
        (slide : SlideRow) (e : String),
      findSlide db projectId slideId = some slide →
      resolveRegeneratePrompt db slideId slide promptInput latestTheme ≠ "" →
      (regenerateSlideImage db fs projectId slideId promptInput latestTheme
          (.error e)).out = .error e
        ∧ (regenerateSlideImage db fs projectId slideId promptInput latestTheme
            (.error e)).db.imageVersions = db.imageVersions
        ∧ slideStatusById (regenerateSlideImage db fs projectId slideId promptInput
            latestTheme (.error e)).db slideId = some ("error", some e)
        ∧ (regenerateSlideImage db fs projectId slideId promptInput latestTheme
            (.error e)).fs = fs)
  ∧ (∀ (slide : SlideRow) (src : ImageVersionRow) (absS absD : List String),
      findSlide db projectId slideId = some slide →
      findVersionRow db.imageVersions slideId V = some src →
      ensureWithinProject root src.imagePath = .ok absS →
      ensureWithinProject root
        (restoreDestPath db projectId slide src
          (nextVersionForSlide db.imageVersions slideId)) = .ok absD →
      fsRead fs src.imagePath = none →
      (restoreSlideImageVersion db fs root projectId slideId V).out
          = .error "ENOENT: no such file or directory"
        ∧ (restoreSlideImageVersion db fs root projectId slideId V).db.imageVersions
            = db.imageVersions
        ∧ slideStatusById (restoreSlideImageVersion db fs root projectId slideId V).db
            slideId = some ("error", some "ENOENT: no such file or directory")
        ∧ (restoreSlideImageVersion db fs root projectId slideId V).fs = fs)
  ∧ (∀ (promptInput : Option String) (latestTheme : Option Theme)
        (gen : Except String GenOk),
      insertsPrecededByWrite
        (regenerateSlideImage db fs projectId slideId promptInput latestTheme gen).events
        [] = true)
  ∧ insertsPrecededByWrite
      (restoreSlideImageVersion db fs root projectId slideId V).events [] = true
  ∧ (∀ (latestTheme : Option Theme) (gen : Nat → Except String GenOk),
      insertsPrecededByWrite
        (runGenerateImagesStep db fs projectId latestTheme gen).2.2.1 [] = true) := by
  refine ⟨?_, ?_, ?_, ?_, ?_⟩
  · intro promptInput latestTheme slide e hslide hprompt
    have hred : regenerateSlideImage db fs projectId slideId promptInput latestTheme
        (.error e) =
        ⟨setSlideStatus (setSlideStatus db slideId "generating_image" none) slideId
            "error" (some e), fs,
          [.dbSetStatus slideId "generating_image", .dbSetStatus slideId "error"],
          .error e⟩ := by
      unfold regenerateSlideImage
      rw [hslide]
      simp only [if_neg hprompt]
      rfl
    have hsome : (slideStatusById db slideId).isSome = true :=
      slideStatusById_isSome_of_findSlide db projectId slideId slide hslide
    refine ⟨by rw [hred], by rw [hred]; rfl, ?_, by rw [hred]⟩
    rw [hred]
    apply slideStatusById_set_same
    rw [slideStatusById_isSome_set]
    exact hsome
  · intro slide src absS absD hslide hsrc hw1 hw2 hread
    have hred : restoreSlideImageVersion db fs root projectId slideId V =
        ⟨setSlideStatus (setSlideStatus db slideId "generating_image" none) slideId
            "error" (some "ENOENT: no such file or directory"), fs,
          [.dbSetStatus slideId "generating_image", .dbSetStatus slideId "error"],
          .error "ENOENT: no such file or directory"⟩ := by
      unfold restoreSlideImageVersion
      rw [hslide, hsrc]
      simp only [hw1, hw2, hread]
      rfl
    have hsome : (slideStatusById db slideId).isSome = true :=
      slideStatusById_isSome_of_findSlide db projectId slideId slide hslide
    refine ⟨by rw [hred], by rw [hred]; rfl, ?_, by rw [hred]⟩
    rw [hred]
    apply slideStatusById_set_same
    rw [slideStatusById_isSome_set]
    exact hsome
  · intro promptInput latestTheme gen
    unfold regenerateSlideImage
    rcases findSlide db projectId slideId with _ | slide
    · rfl
    · by_cases hp : resolveRegeneratePrompt db slideId slide promptInput latestTheme = ""
      · simp only [if_pos hp]
        rfl
      · simp only [if_neg hp]
        rcases hg : gen with e | g
        · simp [generateImageToProject, insertsPrecededByWrite]
        · simp [generateImageToProject, insertsPrecededByWrite]
  · unfold restoreSlideImageVersion
    rcases findSlide db projectId slideId with _ | slide
    · rfl
    · rcases findVersionRow db.imageVersions slideId V with _ | src
      · rfl
      · rcases hw1 : ensureWithinProject root src.imagePath with e | absS
        · simp [hw1, insertsPrecededByWrite]
        · rcases hw2 : ensureWithinProject root
              (restoreDestPath db projectId slide src
                (nextVersionForSlide db.imageVersions slideId)) with e | absD
          · simp [hw1, hw2, insertsPrecededByWrite]
          · rcases hread : fsRead fs src.imagePath with _ | bytes
            · simp [hw1, hw2, hread, insertsPrecededByWrite]
            · simp [hw1, hw2, hread, insertsPrecededByWrite]
  · intro latestTheme gen
    unfold runGenerateImagesStep
    rcases latestTheme with _ | theme
    · rfl
    · by_cases hemp : (projectSlides db projectId).isEmpty
      · simp only [if_pos hemp]
        rfl
      · simp only [if_neg hemp]
        exact foldl_runImagesUnit_inserts theme gen _ _ rfl

def c3FsEmpty : Fs := { files := [] }

/-- Witness for `imageFailure_leaves_no_partial_row`: a failing image
call during regenerate ends the slide in `error` with the message and no
new row; a restore whose source file is missing inserts nothing; a
successful restore's insert happens after its file write. -/
theorem imageFailure_leaves_no_partial_row_witness :
    (regenerateSlideImage c2Db c2Fs 1 7 (some "提示词X") none (.error "接口超时")).out
        = .error "接口超时"
    ∧ slideStatusById (regenerateSlideImage c2Db c2Fs 1 7 (some "提示词X") none
        (.error "接口超时")).db 7 = some ("error", some "接口超时")
    ∧ (regenerateSlideImage c2Db c2Fs 1 7 (some "提示词X") none
        (.error "接口超时")).db.imageVersions = c2Db.imageVersions
    ∧ (restoreSlideImageVersion c2Db c3FsEmpty ["home", "proj"] 1 7 1).db.imageVersions
        = c2Db.imageVersions
    ∧ slideStatusById (restoreSlideImageVersion c2Db c3FsEmpty ["home", "proj"] 1 7 1).db 7
        = some ("error", some "ENOENT: no such file or directory")
    ∧ insertsPrecededByWrite
        (restoreSlideImageVersion c2Db c2Fs ["home", "proj"] 1 7 1).events [] = true := by
  have h1 := (imageFailure_leaves_no_partial_row c2Db c2Fs ["home", "proj"] 1 7 1).1
    (some "提示词X") none c2Slide "接口超时" (by rfl) (by decide)
  have h2 := (imageFailure_leaves_no_partial_row c2Db c3FsEmpty ["home", "proj"] 1 7 1).2.1
    c2Slide c2Row1 (["home", "proj"] ++ ["images", "slide-0001", "v1.png"])
    (["home", "proj"] ++ ["images", "slide-0001", "v3.png"])
    (by rfl) (by rfl) (by decide) (by decide) (by rfl)
  have h3 := (imageFailure_leaves_no_partial_row c2Db c2Fs ["home", "proj"] 1 7 1).2.2.2.1
  exact ⟨h1.1, h1.2.2.1, h1.2.1, h2.2.1, h2.2.2.1, h3⟩

/-- C9: `ensureWithinProject` fails closed — whenever the resolution of a
relative path escapes the project root (the root is not a prefix of the
resolved path, e.g. via `..` segments), it throws `文件路径无效` instead
of returning a path; any path it does return lies within the root, so the
restore and export code never touches a file outside the project. -/
theorem ensureWithinProject_fail_closed (root : List String) (relPath : String) :
    (∀ p, ensureWithinProject root relPath = .ok p →
      root <+: p ∧
        p = resolveFromRoot root ((splitOnChar '/' (cleanRelPath relPath)).map String.mk))
  ∧ (¬ root <+:
        resolveFromRoot root ((splitOnChar '/' (cleanRelPath relPath)).map String.mk) →
      ensureWithinProject root relPath = .error "文件路径无效") := by
  constructor
  · intro p hp
    unfold ensureWithinProject at hp
    by_cases h : root.isPrefixOf
        (resolveFromRoot root ((splitOnChar '/' (cleanRelPath relPath)).map String.mk))
    · rw [if_pos h] at hp
      cases hp
      exact ⟨List.isPrefixOf_iff_prefix.1 h, rfl⟩
    · rw [if_neg h] at hp
      cases hp
  · intro h
    unfold ensureWithinProject
    rw [if_neg (fun hb => h (List.isPrefixOf_iff_prefix.1 hb))]

/-- Witness for `ensureWithinProject_fail_closed`: `../secret` resolves
above the root and is refused; `images/a.png` resolves inside the root
and is returned as the root-prefixed path. -/
theorem ensureWithinProject_fail_closed_witness :
    ensureWithinProject ["home", "proj"] "../secret" = .error "文件路径无效"
    ∧ (["home", "proj"] : List String) <+:
        (["home", "proj"] ++ ["images", "a.png"] : List String) := by
  constructor
  · exact (ensureWithinProject_fail_closed ["home", "proj"] "../secret").2 (by decide)
  · exact ((ensureWithinProject_fail_closed ["home", "proj"] "images/a.png").1
      (["home", "proj"] ++ ["images", "a.png"]) (by decide)).1

/-- C8: a successful Outline commit removes every slide row of the
project and every image-version row belonging to those slides before
inserting the freshly generated rows, which are all `pending` with no
content; afterwards no image-version row references a nonexistent slide
(given the table was consistent before). -/
theorem outlineCommit_clears_project (db : ProjectDb) (projectId : Nat)
    (outline : Outline) (freshIds : Nat → Nat)
    (hint : ∀ v ∈ db.imageVersions, ∃ s ∈ db.slides, s.id = v.slideId) :
    ((runGenerateOutlineCommit db projectId outline freshIds).slides
        = db.slides.filter (fun s => decide (¬ s.projectId = projectId))
          ++ outlineSlideRows projectId outline freshIds)
  ∧ (∀ s ∈ db.slides, s.projectId = projectId →
      ∀ v ∈ (runGenerateOutlineCommit db projectId outline freshIds).imageVersions,
        v.slideId ≠ s.id)
  ∧ (∀ s ∈ outlineSlideRows projectId outline freshIds,
      s.status = "pending" ∧ s.projectId = projectId ∧ s.content = none
        ∧ s.errorMessage = none)
  ∧ (∀ v ∈ (runGenerateOutlineCommit db projectId outline freshIds).imageVersions,
      ∃ s ∈ (runGenerateOutlineCommit db projectId outline freshIds).slides,
        s.id = v.slideId) := by
  refine ⟨rfl, ?_, ?_, ?_⟩
  · intro s hs hsp v hv hvs
    have hv' : v ∈ db.imageVersions ∧
        decide (v.slideId ∉ (db.slides.filter
          (fun s => decide (s.projectId = projectId))).map (fun s => s.id)) = true :=
      List.mem_filter.1 hv
    have hnot := of_decide_eq_true hv'.2
    exact hnot (hvs ▸ List.mem_map_of_mem (fun s => s.id)
      (List.mem_filter.2 ⟨hs, by simp [hsp]⟩))
  · intro s hs
    unfold outlineSlideRows at hs
    obtain ⟨p, _, rfl⟩ := List.mem_map.1 hs
    exact ⟨rfl, rfl, rfl, rfl⟩
  · intro v hv
    have hv' : v ∈ db.imageVersions ∧
        decide (v.slideId ∉ (db.slides.filter
          (fun s => decide (s.projectId = projectId))).map (fun s => s.id)) = true :=
      List.mem_filter.1 hv
    have hnot := of_decide_eq_true hv'.2
    obtain ⟨s, hs, hsid⟩ := hint v hv'.1
    have hsp : ¬ s.projectId = projectId := by
      intro hc
      exact hnot (hsid ▸ List.mem_map_of_mem (fun s => s.id)
        (List.mem_filter.2 ⟨hs, by simp [hc]⟩))
    refine ⟨s, ?_, hsid⟩
    show s ∈ (clearSlides db projectId).slides ++ outlineSlideRows projectId outline freshIds
    exact List.mem_append_left _ (List.mem_filter.2 ⟨hs, by simp [hsp]⟩)

/-- Witness for `outlineCommit_clears_project` on the concrete project 1
database: the old slide (id 7) and both of its image versions are gone
and the two new rows are pending. -/
theorem outlineCommit_clears_project_witness :
    (runGenerateOutlineCommit c2Db 1
        { sections := [{ title := "一", slides := [{ title := "封面", summary := "A" },
            { title := "目录", summary := "B" }] }] } (fun n => 100 + n)).slides
      = c2Db.slides.filter (fun s => decide (¬ s.projectId = 1))
        ++ outlineSlideRows 1
            { sections := [{ title := "一", slides := [{ title := "封面", summary := "A" },
                { title := "目录", summary := "B" }] }] } (fun n => 100 + n) := by
  exact (outlineCommit_clears_project c2Db 1
    { sections := [{ title := "一", slides := [{ title := "封面", summary := "A" },
        { title := "目录", summary := "B" }] }] } (fun n => 100 + n)
    (by decide)).1

/-- What one Images-stage unit does to its own slide, to every other
slide, and to the counters, for each of its three outcomes. -/
theorem runImagesUnit_spec (theme : Theme) (gen : Nat → Except String GenOk)
    (db : ProjectDb) (fs : Fs) (evs : List FxEvent) (c f : Nat) (i : Nat)
    (s : SlideRow) (hsome : (slideStatusById db s.id).isSome = true) :
    ((runImagesUnit theme gen (db, fs, evs, c, f) (i, s)).2.2.2.1
        = c + (if (unitOutcome gen i s).isOk then 1 else 0))
    ∧ ((runImagesUnit theme gen (db, fs, evs, c, f) (i, s)).2.2.2.2
        = f + (if (unitOutcome gen i s).isOk then 0 else 1))
    ∧ slideStatusById (runImagesUnit theme gen (db, fs, evs, c, f) (i, s)).1 s.id
        = some (match unitOutcome gen i s with
            | .ok _ => ("ready", (none : Option String))
            | .error e => ("error", some e))
    ∧ (∀ id, id ≠ s.id →
        slideStatusById (runImagesUnit theme gen (db, fs, evs, c, f) (i, s)).1 id
          = slideStatusById db id)
    ∧ (∀ id,
        (slideStatusById (runImagesUnit theme gen (db, fs, evs, c, f) (i, s)).1 id).isSome
          = (slideStatusById db id).isSome) := by
  rcases hc : s.content with _ | cont
  · have hred : runImagesUnit theme gen (db, fs, evs, c, f) (i, s)
        = (setSlideStatus db s.id "error" (some "内容未生成"), fs,
            evs ++ [.dbSetStatus s.id "error"], c, f + 1) := by
      unfold runImagesUnit
      simp only [hc]
    have hout : unitOutcome gen i s = .error "内容未生成" := by
      unfold unitOutcome
      rw [hc]
    rw [hred, hout]
    refine ⟨rfl, rfl, ?_, ?_, ?_⟩
    · exact slideStatusById_set_same db s.id "error" (some "内容未生成") hsome
    · intro id hid
      exact slideStatusById_set_other db s.id id "error" (some "内容未生成") hid
    · intro id
      exact slideStatusById_isSome_set db s.id id "error" (some "内容未生成")
  · rcases hg : gen i with e | g
    · have hred : runImagesUnit theme gen (db, fs, evs, c, f) (i, s)
          = (setSlideStatus (setSlideStatus db s.id "generating_image" none) s.id
              "error" (some e), fs,
              evs ++ [.dbSetStatus s.id "generating_image", .dbSetStatus s.id "error"],
              c, f + 1) := by
        unfold runImagesUnit
        simp only [hc, generateImageToProject, hg]
      have hout : unitOutcome gen i s = .error e := by
        unfold unitOutcome
        rw [hc, hg]
      rw [hred, hout]
      refine ⟨rfl, rfl, ?_, ?_, ?_⟩
      · apply slideStatusById_set_same
        rw [slideStatusById_isSome_set]
        exact hsome
      · intro id hid
        rw [slideStatusById_set_other _ _ _ _ _ hid,
          slideStatusById_set_other _ _ _ _ _ hid]
      · intro id
        rw [slideStatusById_isSome_set, slideStatusById_isSome_set]
    · have hred : runImagesUnit theme gen (db, fs, evs, c, f) (i, s)
          = (setSlideStatus
              { setSlideStatus db s.id "generating_image" none with
                imageVersions :=
                  (setSlideStatus db s.id "generating_image" none).imageVersions ++
                    [{ slideId := s.id,
                       version := nextVersionForSlide
                         (setSlideStatus db s.id "generating_image" none).imageVersions
                         s.id,
                       promptText := buildSlidePrompt theme s.title cont.bullets
                         cont.imageDescription,
                       imagePath := "images/" ++ slideDirName i ++ "/v"
                         ++ toString (nextVersionForSlide
                             (setSlideStatus db s.id "generating_image" none).imageVersions
                             s.id) ++ "." ++ g.ext,
                       provider := "vectorengine", requestJson := some g.requestJson,
                       responseJson := some g.responseJson }] }
              s.id "ready" none,
              fsWrite fs ("images/" ++ slideDirName i ++ "/v"
                ++ toString (nextVersionForSlide
                    (setSlideStatus db s.id "generating_image" none).imageVersions s.id)
                ++ "." ++ g.ext) g.bytes,
              evs ++ [.dbSetStatus s.id "generating_image"]
                ++ [.fsWrite ("images/" ++ slideDirName i ++ "/v"
                    ++ toString (nextVersionForSlide
                        (setSlideStatus db s.id "generating_image" none).imageVersions
                        s.id) ++ "." ++ g.ext)]
                ++ [.dbInsertVersion s.id
                      (nextVersionForSlide
                        (setSlideStatus db s.id "generating_image" none).imageVersions
                        s.id)
                      ("images/" ++ slideDirName i ++ "/v"
                        ++ toString (nextVersionForSlide
                            (setSlideStatus db s.id "generating_image" none).imageVersions
                            s.id) ++ "." ++ g.ext),
                    .dbSetStatus s.id "ready"],
              c + 1, f) := by
        unfold runImagesUnit
        simp only [hc, generateImageToProject, hg]
      have hout : ∃ u, unitOutcome gen i s = .ok u := by
        refine ⟨(), ?_⟩
        unfold unitOutcome
        rw [hc, hg]
      obtain ⟨u, hout⟩ := hout
      rw [hred, hout]
      refine ⟨rfl, rfl, ?_, ?_, ?_⟩
      · apply slideStatusById_set_same
        show (slideStatusById (setSlideStatus db s.id "generating_image" none)
          s.id).isSome = true
        rw [slideStatusById_isSome_set]
        exact hsome
      · intro id hid
        show slideStatusById (setSlideStatus (setSlideStatus db s.id "generating_image"
          none) s.id "ready" none) id = slideStatusById db id
        rw [slideStatusById_set_other _ _ _ _ _ hid,
          slideStatusById_set_other _ _ _ _ _ hid]
      · intro id
        show (slideStatusById (setSlideStatus (setSlideStatus db s.id "generating_image"
          none) s.id "ready" none) id).isSome = (slideStatusById db id).isSome
        rw [slideStatusById_isSome_set, slideStatusById_isSome_set]

/-- The fold over all units: counters count unit outcomes, each processed
slide carries its unit's terminal status, untouched slides keep theirs. -/
theorem foldl_runImagesUnit_spec (theme : Theme) (gen : Nat → Except String GenOk) :
    ∀ (l : List (Nat × SlideRow)) (db : ProjectDb) (fs : Fs) (evs : List FxEvent)
      (c f : Nat),
      (l.map (fun p => p.2.id)).Nodup →
      (∀ p ∈ l, (slideStatusById db p.2.id).isSome = true) →
      ((l.foldl (runImagesUnit theme gen) (db, fs, evs, c, f)).2.2.2.1
          = c + (l.filter (fun p => (unitOutcome gen p.1 p.2).isOk)).length
        ∧ (l.foldl (runImagesUnit theme gen) (db, fs, evs, c, f)).2.2.2.2
            = f + (l.filter (fun p => !(unitOutcome gen p.1 p.2).isOk)).length
        ∧ (∀ p ∈ l,
            slideStatusById (l.foldl (runImagesUnit theme gen) (db, fs, evs, c, f)).1
              p.2.id
              = some (match unitOutcome gen p.1 p.2 with
                  | .ok _ => ("ready", (none : Option String))
                  | .error e => ("error", some e)))
        ∧ (∀ id,
            (slideStatusById (l.foldl (runImagesUnit theme gen) (db, fs, evs, c, f)).1
              id).isSome = (slideStatusById db id).isSome)
        ∧ (∀ id, (∀ p ∈ l, p.2.id ≠ id) →
            slideStatusById (l.foldl (runImagesUnit theme gen) (db, fs, evs, c, f)).1 id
              = slideStatusById db id)) := by
  intro l
  induction l with
  | nil =>
      intro db fs evs c f hnd hsome
      exact ⟨rfl, rfl, fun p hp => absurd hp (List.not_mem_nil p), fun id => rfl,
        fun id _ => rfl⟩
  | cons p0 l ih =>
      intro db fs evs c f hnd hsome
      obtain ⟨i, s⟩ := p0
      have hsome0 : (slideStatusById db s.id).isSome = true :=
        hsome (i, s) (List.mem_cons_self _ _)
      have hunit := runImagesUnit_spec theme gen db fs evs c f i s hsome0
      rcases hacc : runImagesUnit theme gen (db, fs, evs, c, f) (i, s) with
        ⟨db1, fs1, evs1, c1, f1⟩
      rw [hacc] at hunit
      simp only [Prod.fst, Prod.snd] at hunit
      have hnd2 : s.id ∉ l.map (fun p => p.2.id) ∧ (l.map (fun p => p.2.id)).Nodup := by
        rw [List.map_cons] at hnd
        exact List.nodup_cons.1 hnd
      have hnd' : (l.map (fun p => p.2.id)).Nodup := hnd2.2
      have hnotin : s.id ∉ l.map (fun p => p.2.id) := hnd2.1
      have hsome' : ∀ p ∈ l, (slideStatusById db1 p.2.id).isSome = true := by
        intro p hp
        rw [hunit.2.2.2.2 p.2.id]
        exact hsome p (List.mem_cons_of_mem _ hp)
      have hrec := ih db1 fs1 evs1 c1 f1 hnd' hsome'
      have hfold : (((i, s) :: l).foldl (runImagesUnit theme gen) (db, fs, evs, c, f))
          = l.foldl (runImagesUnit theme gen) (db1, fs1, evs1, c1, f1) := by
        rw [List.foldl_cons, hacc]
      rw [hfold]
      refine ⟨?_, ?_, ?_, ?_, ?_⟩
      · rw [hrec.1, hunit.1, List.filter_cons]
        by_cases hok : (unitOutcome gen i s).isOk
        · simp [hok]
          omega
        · simp [hok]
      · rw [hrec.2.1, hunit.2.1, List.filter_cons]
        by_cases hok : (unitOutcome gen i s).isOk
        · simp [hok]
        · simp [hok]
          omega
      · intro p hp
        rcases List.mem_cons.1 hp with rfl | hp'
        · have hframe := hrec.2.2.2.2 s.id (fun q hq hqeq =>
            hnotin (hqeq ▸ List.mem_map_of_mem (fun r => r.2.id) hq))
          exact hframe.trans hunit.2.2.1
        · exact hrec.2.2.1 p hp'
      · intro id
        rw [hrec.2.2.2.1 id, hunit.2.2.2.2 id]
      · intro id hall
        rw [hrec.2.2.2.2 id (fun q hq => hall q (List.mem_cons_of_mem _ hq)),
          hunit.2.2.2.1 id (hall (i, s) (List.mem_cons_self _ _)).symm]

theorem mem_projectSlides_isSome (db : ProjectDb) (pid : Nat) (s : SlideRow)
    (h : s ∈ projectSlides db pid) : (slideStatusById db s.id).isSome = true := by
  unfold projectSlides at h
  have hmem := (List.mem_filter.1 ((List.mem_insertionSort _).1 h)).1
  rw [isSome_slideStatusById, List.find?_isSome]
  exact ⟨s, hmem, by simp⟩

/-- C7: over a non-empty deck with a theme, the Images stage completes the
job with `totalSlides` = deck size, `completedSlides` counting the units
that succeeded and `failedSlides` those that failed (they partition the
deck), and each slide individually ends `ready`, or `error` carrying its
own unit's message (missing content gives `内容未生成`) — one slide's
failure never aborts the stage or the other slides. -/
theorem runGenerateImagesStep_isolation (db : ProjectDb) (fs : Fs) (projectId : Nat)
    (theme : Theme) (gen : Nat → Except String GenOk)
    (hne : ¬ (projectSlides db projectId).isEmpty = true)
    (hids : ((projectSlides db projectId).map (fun s => s.id)).Nodup) :
    (runGenerateImagesStep db fs projectId (some theme) gen).2.2.2.status = "completed"
  ∧ (runGenerateImagesStep db fs projectId (some theme) gen).2.2.2.error = none
  ∧ (runGenerateImagesStep db fs projectId (some theme) gen).2.2.2.totalSlides
      = (projectSlides db projectId).length
  ∧ (runGenerateImagesStep db fs projectId (some theme) gen).2.2.2.completedSlides
      = ((projectSlides db projectId).enum.filter
          (fun p => (unitOutcome gen p.1 p.2).isOk)).length
  ∧ (runGenerateImagesStep db fs projectId (some theme) gen).2.2.2.failedSlides
      = ((projectSlides db projectId).enum.filter
          (fun p => !(unitOutcome gen p.1 p.2).isOk)).length
  ∧ (runGenerateImagesStep db fs projectId (some theme) gen).2.2.2.completedSlides
      + (runGenerateImagesStep db fs projectId (some theme) gen).2.2.2.failedSlides
      = (projectSlides db projectId).length
  ∧ (∀ p ∈ (projectSlides db projectId).enum,
      slideStatusById (runGenerateImagesStep db fs projectId (some theme) gen).1 p.2.id
        = some (match unitOutcome gen p.1 p.2 with
            | .ok _ => ("ready", (none : Option String))
            | .error e => ("error", some e))) := by
  have henum : ((projectSlides db projectId).enum.map (fun p => p.2.id)).Nodup := by
    have h1 : (projectSlides db projectId).enum.map (fun p => p.2.id)
        = ((projectSlides db projectId).enum.map Prod.snd).map (fun s => s.id) := by
      rw [List.map_map]
      rfl
    rw [h1, List.enum_map_snd]
    exact hids
  have hsome : ∀ p ∈ (projectSlides db projectId).enum,
      (slideStatusById db p.2.id).isSome = true := by
    intro p hp
    apply mem_projectSlides_isSome db projectId p.2
    have := List.mem_map_of_mem Prod.snd hp
    rwa [List.enum_map_snd] at this
  have hfold := foldl_runImagesUnit_spec theme gen
    (projectSlides db projectId).enum db fs [] 0 0 henum hsome
  have hparts :
      (projectSlides db projectId).enum.length
        = ((projectSlides db projectId).enum.filter
            (fun p => (unitOutcome gen p.1 p.2).isOk)).length
          + ((projectSlides db projectId).enum.filter
              (fun p => !(unitOutcome gen p.1 p.2).isOk)).length :=
    List.length_eq_length_filter_add (fun p => (unitOutcome gen p.1 p.2).isOk)
  simp only [runGenerateImagesStep, if_neg hne]
  refine ⟨trivial, trivial, trivial, ?_, ?_, ?_, ?_⟩
  · simpa using hfold.1
  · simpa using hfold.2.1
  · have h1 := hfold.1
    have h2 := hfold.2.1
    have h3 : (projectSlides db projectId).enum.length
        = (projectSlides db projectId).length := List.enum_length
    show ((projectSlides db projectId).enum.foldl (runImagesUnit theme gen)
        (db, fs, [], 0, 0)).2.2.2.1
      + ((projectSlides db projectId).enum.foldl (runImagesUnit theme gen)
          (db, fs, [], 0, 0)).2.2.2.2
      = (projectSlides db projectId).length
    omega
  · exact hfold.2.2.1

def c7Content : SlideContent :=
  { bullets := ["要点一"], speakerNotes := "备注", imageDescription := "画面" }

/-- A three-slide deck of project 2: slide 1 has content and its image
call succeeds, slide 2 has no content, slide 3's image call fails. -/
def c7Db : ProjectDb :=
  { slides := [
      { id := 1, projectId := 2, sectionIndex := 0, slideIndex := 0, title := "一",
        summary := "s1", content := some c7Content, status := "text_ready",
        errorMessage := none },
      { id := 2, projectId := 2, sectionIndex := 0, slideIndex := 1, title := "二",
        summary := "s2", content := none, status := "text_ready",
        errorMessage := none },
      { id := 3, projectId := 2, sectionIndex := 1, slideIndex := 0, title := "三",
        summary := "s3", content := some c7Content, status := "text_ready",
        errorMessage := none }],
    imageVersions := [] }

def c7Gen : Nat → Except String GenOk :=
  fun i => if i = 2 then .error "接口超时"
    else .ok { bytes := [9], ext := "png", requestJson := "rq", responseJson := "rs" }

def c7Theme : Theme := { styleName := "默认", stylePrompt := "风格" }

/-- Witness for `runGenerateImagesStep_isolation`: the job completes with
1 success and 2 failures out of 3 slides; slide 2's missing content and
slide 3's failed call stay on those slides. -/
theorem runGenerateImagesStep_isolation_witness :
    (runGenerateImagesStep c7Db c3FsEmpty 2 (some c7Theme) c7Gen).2.2.2.status
        = "completed"
    ∧ (runGenerateImagesStep c7Db c3FsEmpty 2 (some c7Theme) c7Gen).2.2.2.completedSlides
        = 1
    ∧ (runGenerateImagesStep c7Db c3FsEmpty 2 (some c7Theme) c7Gen).2.2.2.failedSlides
        = 2 := by
  have h := runGenerateImagesStep_isolation c7Db c3FsEmpty 2 c7Theme c7Gen
    (by decide) (by decide)
  refine ⟨h.1, ?_, ?_⟩
  · rw [h.2.2.2.1]
    decide
  · rw [h.2.2.2.2.1]
    decide

end AIPPT
